import Mathlib

/-!
Verification development for the `restfulwrapper` package: a shallow embedding
of its build-time route compilation (function-signature analysis, metadata
field walking, the field-directive registry) and of its request-time dispatch
(binders, handler invocation, response/error rendering), together with
theorems checking the specification's claims against this embedding.

Modelling conventions:
* Go's reflective type universe is embedded as the inductive `GoType`
  (struct fields as `GoField`).  The embedded fragment covers the kinds the
  package manipulates; it excludes Go's floating-point kinds and types whose
  pointer implements the package's `ParameterParser` interface (custom
  string-parsing hooks), so `parseStringToSingleValue` below carries only the
  built-in scalar branches of the source.
* Machine integers are `Int`/`Nat` with explicit range checks mirroring
  `strconv`'s bit-size checks (64-bit platform: `int`/`uint` have 64 bits).
* Go errors are strings at build time and the inductive `GoError` at request
  time; a Go `panic` is modelled as an error value (noted where it occurs).
* Writing to the HTTP response is modelled as a list of `RespEvent`s; reading
  the request body (I/O) is an oracle carried by the `Request` model.
-/

namespace RestfulWrapper

/-! ### Go string helpers (`strings`, `strconv`, `fmt`) -/

/-- Model of `fmt`'s `%q` for strings without escape-worthy characters. -/
def goQuote (s : String) : String := "\"" ++ s ++ "\""

/-- The message of `strconv`'s `ErrSyntax` `NumError`. -/
def goSyntaxError (fn s : String) : String :=
  "strconv." ++ fn ++ ": parsing " ++ goQuote s ++ ": invalid syntax"

/-- The message of `strconv`'s `ErrRange` `NumError`. -/
def goRangeError (fn s : String) : String :=
  "strconv." ++ fn ++ ": parsing " ++ goQuote s ++ ": value out of range"

/-- Base-10 digit run: `some n` iff the characters are one or more decimal
digits (mirrors `strconv`'s digit loop for an explicit base 10). -/
def decimalDigits? (cs : List Char) : Option Nat :=
  if cs ≠ [] ∧ cs.all Char.isDigit then
    some (cs.foldl (fun a c => a * 10 + (c.toNat - 48)) 0)
  else none

/-- Model of Go `strconv.ParseUint(s, 10, bitSize)` (value or error message).
No sign is accepted; a value above `2^bitSize - 1` is a range error. -/
def goParseUint (s : String) (bitSize : Nat) : Except String Nat :=
  match decimalDigits? s.toList with
  | none => .error (goSyntaxError "ParseUint" s)
  | some n =>
    if n ≤ 2 ^ bitSize - 1 then .ok n
    else .error (goRangeError "ParseUint" s)

/-- Model of Go `strconv.ParseInt(s, 10, bitSize)`: optional single sign,
then decimal digits; range `[-2^(bitSize-1), 2^(bitSize-1) - 1]`. -/
def goParseInt (s : String) (bitSize : Nat) : Except String Int :=
  match s.toList with
  | [] => .error (goSyntaxError "ParseInt" s)
  | c :: rest =>
    let neg := c = '-'
    let digits := if c = '-' ∨ c = '+' then rest else c :: rest
    match decimalDigits? digits with
    | none => .error (goSyntaxError "ParseInt" s)
    | some n =>
      let v : Int := if neg then -(n : Int) else (n : Int)
      if -(2 ^ (bitSize - 1) : Int) ≤ v ∧ v ≤ (2 ^ (bitSize - 1) : Int) - 1 then .ok v
      else .error (goRangeError "ParseInt" s)

/-- Model of Go `strconv.ParseBool`. -/
def goParseBool (s : String) : Except String Bool :=
  match s with
  | "1" | "t" | "T" | "TRUE" | "true" | "True" => .ok true
  | "0" | "f" | "F" | "FALSE" | "false" | "False" => .ok false
  | _ => .error (goSyntaxError "ParseBool" s)

/-- Split a character list at every occurrence of `sep`. -/
def goSplitCharAux (sep : Char) (acc : List Char) : List Char → List (List Char)
  | [] => [acc.reverse]
  | c :: rest =>
    if c = sep then acc.reverse :: goSplitCharAux sep [] rest
    else goSplitCharAux sep (c :: acc) rest

/-- Model of Go `strings.Split(s, sep)`; every separator this package splits
on (`":"`, `","`, `";"`) is a single character. -/
def goSplit (s sep : String) : List String :=
  match sep.data with
  | [c] => (goSplitCharAux c [] s.data).map (fun cs => ⟨cs⟩)
  | _ => [s]

/-- Split a character list at the first occurrence of `sep` only. -/
def goSplitN2Aux (sep : Char) (acc : List Char) :
    List Char → List Char × Option (List Char)
  | [] => (acc.reverse, none)
  | c :: rest =>
    if c = sep then (acc.reverse, some rest)
    else goSplitN2Aux sep (c :: acc) rest

/-- Model of Go `strings.SplitN(s, sep, 2)` returning the head part and the
remainder (`""` when the separator does not occur, like `parts[1]` read with
a length guard); the one separator used this way is the single character
`":"`. -/
def goSplitN2 (s sep : String) : String × String :=
  match sep.data with
  | [c] =>
    match goSplitN2Aux c [] s.data with
    | (a, none) => (⟨a⟩, "")
    | (a, some b) => (⟨a⟩, ⟨b⟩)
  | _ => (s, "")

/-- Model of Go `strings.TrimSpace` (over the ASCII whitespace the tests
exercise). -/
def goTrimSpace (s : String) : String :=
  ⟨((s.data.dropWhile Char.isWhitespace).reverse.dropWhile
      Char.isWhitespace).reverse⟩

/-! ### The embedded Go type universe -/

/-- Model of `reflect.Kind` (the kinds this package distinguishes). -/
inductive GoKind : Type where
  | kBool | kInt | kInt8 | kInt16 | kInt32 | kInt64
  | kUint | kUint8 | kUint16 | kUint32 | kUint64
  | kString | kSlice | kPointer | kStruct | kFunc | kInterface | kMap | kOther
  deriving DecidableEq, Repr

/-- `reflect.Kind.String()` for the modelled kinds. -/
def GoKind.goString : GoKind → String
  | .kBool => "bool"
  | .kInt => "int"
  | .kInt8 => "int8"
  | .kInt16 => "int16"
  | .kInt32 => "int32"
  | .kInt64 => "int64"
  | .kUint => "uint"
  | .kUint8 => "uint8"
  | .kUint16 => "uint16"
  | .kUint32 => "uint32"
  | .kUint64 => "uint64"
  | .kString => "string"
  | .kSlice => "slice"
  | .kPointer => "ptr"
  | .kStruct => "struct"
  | .kFunc => "func"
  | .kInterface => "interface"
  | .kMap => "map"
  | .kOther => "other"

mutual
/-- The embedded fragment of Go's type universe.  `iface` and `named` carry
whether the type satisfies the `context.Context` and `error` interfaces
(`reflect.Type.Implements` answers); a struct may also satisfy them. -/
inductive GoType : Type where
  | bool
  | int | int8 | int16 | int32 | int64
  | uint | uint8 | uint16 | uint32 | uint64
  | str
  | slice (elem : GoType)
  | ptr (elem : GoType)
  | strct (typeName : String) (implCtx implErr : Bool) (fields : List GoField)
  | func (ins : List GoType) (outs : List GoType)
  | iface (typeName : String) (implCtx implErr : Bool)
  | named (typeName : String) (kind : GoKind) (implCtx implErr : Bool)

/-- Model of `reflect.StructField`: name, type, tag (key/value pairs, first
match wins on lookup) and the `Anonymous` (embedded) flag. -/
inductive GoField : Type where
  | mk (name : String) (typ : GoType) (tag : List (String × String)) (anonymous : Bool)
end

def GoField.name : GoField → String
  | .mk n _ _ _ => n

def GoField.typ : GoField → GoType
  | .mk _ t _ _ => t

def GoField.tag : GoField → List (String × String)
  | .mk _ _ tg _ => tg

def GoField.anonymous : GoField → Bool
  | .mk _ _ _ a => a

/-- `reflect.Type.Kind()`. -/
def GoType.kind : GoType → GoKind
  | .bool => .kBool
  | .int => .kInt
  | .int8 => .kInt8
  | .int16 => .kInt16
  | .int32 => .kInt32
  | .int64 => .kInt64
  | .uint => .kUint
  | .uint8 => .kUint8
  | .uint16 => .kUint16
  | .uint32 => .kUint32
  | .uint64 => .kUint64
  | .str => .kString
  | .slice _ => .kSlice
  | .ptr _ => .kPointer
  | .strct _ _ _ _ => .kStruct
  | .func _ _ => .kFunc
  | .iface _ _ _ => .kInterface
  | .named _ k _ _ => k

/-- `t.Implements(contextType)` for the modelled types. -/
def GoType.implementsContext : GoType → Bool
  | .strct _ c _ _ => c
  | .iface _ c _ => c
  | .named _ _ c _ => c
  | _ => false

/-- `t.Implements(errorType)` for the modelled types. -/
def GoType.implementsError : GoType → Bool
  | .strct _ _ e _ => e
  | .iface _ _ e => e
  | .named _ _ _ e => e
  | _ => false

/-- `reflect.Type.String()` for the modelled types. -/
def GoType.goString : GoType → String
  | .bool => "bool"
  | .int => "int"
  | .int8 => "int8"
  | .int16 => "int16"
  | .int32 => "int32"
  | .int64 => "int64"
  | .uint => "uint"
  | .uint8 => "uint8"
  | .uint16 => "uint16"
  | .uint32 => "uint32"
  | .uint64 => "uint64"
  | .str => "string"
  | .slice e => "[]" ++ e.goString
  | .ptr e => "*" ++ e.goString
  | .strct n _ _ _ => n
  | .func _ _ => "func"
  | .iface n _ _ => n
  | .named n _ _ _ => n

/-- `reflect.Type.Bits()` for the integral kinds (64-bit platform). -/
def GoType.bits : GoType → Nat
  | .int => 64
  | .int8 => 8
  | .int16 => 16
  | .int32 => 32
  | .int64 => 64
  | .uint => 64
  | .uint8 => 8
  | .uint16 => 16
  | .uint32 => 32
  | .uint64 => 64
  | _ => 0

/-- One layer of pointer dereference on a type (the `switch Kind { case
Pointer: argumentType = argumentType.Elem() }` idiom of the source). -/
def derefOnce : GoType → GoType
  | .ptr e => e
  | t => t

/-- The `context.Context` interface type. -/
def contextContext : GoType := .iface "context.Context" true false

/-- The `error` interface type. -/
def errorIface : GoType := .iface "error" false true

/-! ### Go values (the fragment reachable through this package's binders) -/

/-- Model of a `reflect.Value` of one of the embedded types. -/
inductive GoValue : Type where
  | vBool (b : Bool)
  | vInt (n : Int)
  | vUint (n : Nat)
  | vStr (s : String)
  | vSlice (elems : List GoValue)
  | vPtr (pointee : Option GoValue)
  | vStruct (fields : List (String × GoValue))
  | vHTTPRequest
  | vRestfulRequest
  | vHandle (descr : String)

/-- `reflect.New(t).Elem()`: the zero value of a type. -/
def zeroValue : GoType → GoValue
  | .bool => .vBool false
  | .int => .vInt 0
  | .int8 => .vInt 0
  | .int16 => .vInt 0
  | .int32 => .vInt 0
  | .int64 => .vInt 0
  | .uint => .vUint 0
  | .uint8 => .vUint 0
  | .uint16 => .vUint 0
  | .uint32 => .vUint 0
  | .uint64 => .vUint 0
  | .str => .vStr ""
  | .slice _ => .vSlice []
  | .ptr _ => .vPtr none
  | .strct _ _ _ fields =>
    .vStruct (fields.attach.map (fun x => (x.1.name, zeroValue x.1.typ)))
  | .func _ _ => .vHandle "func"
  | .iface n _ _ => .vHandle n
  | .named n _ _ _ => .vHandle n
decreasing_by
  obtain ⟨f, hf⟩ := x
  have h1 := List.sizeOf_lt_of_mem hf
  cases f with
  | mk n t tg a =>
    simp only [GoField.typ, GoType.strct.sizeOf_spec]
    simp only [GoField.mk.sizeOf_spec] at h1
    omega

/-! ### `parsestringvalue.go`: `parseStringToSingleValue` -/

/-- Model of `parseStringToSingleValue(stringValue, target)`, called with
`target` a non-nil pointer whose element type is `targetElem` (the source
first rejects non-pointer targets; every call in this package passes an
addressable field, so the model takes the element type directly).  The
`ParameterParser` branch is outside the embedded fragment (see the header
comment); the remaining branches mirror the source's kind switch, with the
unhandled kinds (struct, slice, pointer-to-pointer, ...) producing the
source's "unhandled kind" error. -/
def parseStringToSingleValue (stringValue : String) (targetElem : GoType) :
    Except String GoValue :=
  match targetElem with
  | .bool => (goParseBool stringValue).map .vBool
  | .int => (goParseInt stringValue 64).map .vInt
  | .int8 => (goParseInt stringValue 8).map .vInt
  | .int16 => (goParseInt stringValue 16).map .vInt
  | .int32 => (goParseInt stringValue 32).map .vInt
  | .int64 => (goParseInt stringValue 64).map .vInt
  | .str => .ok (.vStr stringValue)
  | .uint => (goParseUint stringValue 64).map .vUint
  | .uint8 => (goParseUint stringValue 8).map .vUint
  | .uint16 => (goParseUint stringValue 16).map .vUint
  | .uint32 => (goParseUint stringValue 32).map .vUint
  | .uint64 => (goParseUint stringValue 64).map .vUint
  | t => .error ("could not parse to single value: unhandled kind: " ++ t.kind.goString)

/-! ### `info.go`: the route descriptor -/

/-- Model of `RestfulFunctionPathParameter`. -/
structure RestfulFunctionPathParameter : Type where
  fieldName : String
  name : String
  description : String
  deriving DecidableEq, Repr

/-- Model of `RestfulFunctionQueryParameter`. -/
structure RestfulFunctionQueryParameter : Type where
  fieldName : String
  name : String
  description : String
  allowMultiple : Bool
  deriving DecidableEq, Repr

/-- Model of `RestfulFunctionHeaderParameter`. -/
structure RestfulFunctionHeaderParameter : Type where
  fieldName : String
  name : String
  description : String
  allowMultiple : Bool
  deriving DecidableEq, Repr

/-- The data a registered binder closure captures.  In the source every
directive factory returns an `InputFieldFunction` closure; here each closure
is represented by the constructor for its directive together with the values
it captures, and `runBinder` below interprets it against a live request
(reading the final route info where the Go closure reads the shared `info`
pointer). -/
inductive BinderSpec : Type where
  | body (allowEmpty : Bool) (fieldType : GoType)
  | doc
  | header (name : String)
  | httpmethod
  | httppath
  | httprequest
  | notes
  | path (name : String)
  | produces (value : String)
  | query (names : List String) (defaultValue : Option String)
  | restfulrequest

/-- Model of `InputField`: a metadata-struct field name and its binder. -/
structure InputField : Type where
  name : String
  function : BinderSpec

/-- Model of `RestfulFunctionInfo`.  `FunctionValue` is factored out (the
dispatcher model receives the handler separately); `Do` and `LocalMap` are
omitted (no claim concerns them); positions use `Int` so that `-1` marks an
absent slot exactly as in the source.  Example values (`BodyExample`,
`ResponseExample`) are recorded by the type of the zero value the source
instantiates. -/
structure RestfulFunctionInfo : Type where
  inContextPosition : Int := -1
  inMetadataPosition : Int := -1
  inMetadataType : Option GoType := none
  outErrorPosition : Int := -1
  outResponsePosition : Int := -1
  httpMethod : String := ""
  httpPath : String := ""
  doc : String := ""
  notes : String := ""
  pathParameters : List RestfulFunctionPathParameter := []
  queryParameters : List RestfulFunctionQueryParameter := []
  headerParameters : List RestfulFunctionHeaderParameter := []
  bodyExample : Option GoType := none
  responseExample : Option GoType := none
  consumes : List String := []
  produces : List String := []
  inputFields : List InputField := []

/-! ### `register.go`: the directive registry -/

/-- Model of `RegisterFunction`: a factory takes the directive's value text,
the struct field and the route info, and returns the updated info together
with the binder to register (`none` models a nil `InputFieldFunction`). -/
def RegisterFunction : Type :=
  String → GoField → RestfulFunctionInfo →
    Except String (RestfulFunctionInfo × Option BinderSpec)

/-- Model of `Register`: Go panics on a duplicate key (second component
`true`) leaving the map untouched; otherwise the binding is added. -/
def Register {α : Type} (m : List (String × α)) (apiTagKey : String) (f : α) :
    List (String × α) × Bool :=
  if (m.lookup apiTagKey).isSome then (m, true)
  else (m ++ [(apiTagKey, f)], false)

/-! ### `init-register.go`: the built-in directive factories (build-time
behaviour; the request-time closures are interpreted by `runBinder`). -/

/-- The tag-part loop of the `body` factory: accumulates `consumes` entries
and the `empty` flag, rejecting unknown keys and a valued `empty`. -/
def parseBodyTagParts :
    List String → List String → Bool → Except String (List String × Bool)
  | [], consumes, allowEmpty => .ok (consumes, allowEmpty)
  | tagPart :: rest, consumes, allowEmpty =>
    let (tagPartKey, tagPartValue) := goSplitN2 tagPart ":"
    if tagPartKey = "consumes" then
      parseBodyTagParts rest
        (consumes ++ (goSplit tagPartValue ",").map goTrimSpace) allowEmpty
    else if tagPartKey = "empty" then
      if tagPartValue ≠ "" then
        .error ("invalid body tag value for empty: " ++ tagPartValue)
      else parseBodyTagParts rest consumes true
    else .error ("invalid body tag: " ++ tagPartKey)

/-- The `body` directive factory. -/
def bodyFactory : RegisterFunction := fun apiTagValue field info =>
  match (if apiTagValue.length > 0 then
      parseBodyTagParts (goSplit apiTagValue ";") [] false
    else .ok ([], false)) with
  | .error e => .error e
  | .ok (consumes, allowEmpty) =>
  let info := if allowEmpty then info else { info with bodyExample := some field.typ }
  let info := { info with consumes := consumes }
  let ts := field.typ.goString
  let info :=
    if ts = "url.Values" ∨ ts = "*url.Values" then
      if info.consumes = [] then
        { info with consumes := info.consumes ++ ["application/x-www-form-urlencoded"] }
      else info
    else if ts = "multipart.Form" ∨ ts = "*multipart.Form" then
      if info.consumes = [] then
        { info with consumes := info.consumes ++ ["multipart/form-data"] }
      else info
    else info
  if "application/x-www-form-urlencoded" ∈ info.consumes ∧
      ¬(ts = "url.Values" ∨ ts = "*url.Values") then
    .error ("invalid type for content-type application/x-www-form-urlencoded: " ++ ts)
  else if "multipart/form-data" ∈ info.consumes ∧
      ¬(ts = "multipart.Form" ∨ ts = "*multipart.Form") then
    .error ("invalid type for content-type multipart/form-data: " ++ ts)
  else
    .ok (info, some (.body allowEmpty field.typ))

/-- The `doc` directive factory. -/
def docFactory : RegisterFunction := fun apiTagValue field info =>
  if apiTagValue ≠ "" then .error ("unexpected tag value: " ++ apiTagValue)
  else if field.typ.kind ≠ .kString then
    .error ("bad kind: " ++ field.typ.kind.goString)
  else
    .ok ({ info with doc := (field.tag.lookup "description").getD "" }, some .doc)

/-- The `header` directive factory. -/
def headerFactory : RegisterFunction := fun apiTagValue field info =>
  if apiTagValue = "" then .error "missing tag value"
  else if info.headerParameters.any (fun item => item.name == apiTagValue) then
    .error "duplicate header tag"
  else
    .ok ({ info with headerParameters := info.headerParameters ++
            [⟨field.name, apiTagValue, (field.tag.lookup "description").getD "", false⟩] },
      some (.header apiTagValue))

/-- The `httpmethod` directive factory. -/
def httpmethodFactory : RegisterFunction := fun apiTagValue field info =>
  if apiTagValue = "" then .error ("missing tag value: " ++ apiTagValue)
  else if field.typ.kind ≠ .kString then
    .error ("bad kind: " ++ field.typ.kind.goString)
  else .ok ({ info with httpMethod := apiTagValue }, some .httpmethod)

/-- The `httppath` directive factory. -/
def httppathFactory : RegisterFunction := fun apiTagValue field info =>
  if apiTagValue = "" then .error ("missing tag value: " ++ apiTagValue)
  else if field.typ.kind ≠ .kString then
    .error ("bad kind: " ++ field.typ.kind.goString)
  else .ok ({ info with httpPath := apiTagValue }, some .httppath)

/-- The `httprequest` directive factory. -/
def httprequestFactory : RegisterFunction := fun apiTagValue field info =>
  if apiTagValue ≠ "" then .error ("unexpected tag value: " ++ apiTagValue)
  else if field.typ.goString ≠ "*http.Request" then
    .error ("bad type: " ++ field.typ.goString)
  else .ok (info, some .httprequest)

/-- The `notes` directive factory. -/
def notesFactory : RegisterFunction := fun apiTagValue field info =>
  if apiTagValue ≠ "" then .error ("unexpected tag value: " ++ apiTagValue)
  else if field.typ.kind ≠ .kString then
    .error ("bad kind: " ++ field.typ.kind.goString)
  else
    .ok ({ info with notes := (field.tag.lookup "description").getD "" }, some .notes)

/-- The `path` directive factory. -/
def pathFactory : RegisterFunction := fun apiTagValue field info =>
  if apiTagValue = "" then .error "missing tag value"
  else if info.pathParameters.any (fun item => item.name == apiTagValue) then
    .error "duplicate path tag"
  else
    .ok ({ info with pathParameters := info.pathParameters ++
            [⟨field.name, apiTagValue, (field.tag.lookup "description").getD ""⟩] },
      some (.path apiTagValue))

/-- The `produces` directive factory. -/
def producesFactory : RegisterFunction := fun apiTagValue field info =>
  if apiTagValue = "" then .error "missing tag value"
  else if field.typ.goString ≠ "string" then
    .error ("bad type: " ++ field.typ.goString)
  else
    .ok ({ info with produces := info.produces ++ [apiTagValue] },
      some (.produces apiTagValue))

/-- The `query` directive factory.  The comma-separated name list is trimmed;
each name is checked against the parameters registered so far; the primary
name and deprecated aliases are appended; the binder captures the name list
and the field's `default` tag attribute. -/
def queryFactory : RegisterFunction := fun apiTagValue field info =>
  if apiTagValue = "" then .error "missing tag value"
  else
    match (goSplit apiTagValue ",").map goTrimSpace with
    | [] => .error "internal: empty name list"
    | primaryName :: aliasNames =>
      let names := primaryName :: aliasNames
      match names.find?
          (fun n => info.queryParameters.any (fun item => item.name == n)) with
      | some n => .error ("duplicate query tag: " ++ n)
      | none =>
        let allowMultiple := field.typ.kind == GoKind.kSlice
        let primary : RestfulFunctionQueryParameter :=
          ⟨field.name, primaryName, (field.tag.lookup "description").getD "",
            allowMultiple⟩
        let aliases := aliasNames.map (fun n =>
          (⟨field.name, n, "Deprecated; use " ++ goQuote primaryName ++ " instead.",
            allowMultiple⟩ : RestfulFunctionQueryParameter))
        .ok ({ info with
                queryParameters := info.queryParameters ++ [primary] ++ aliases },
          some (.query names (field.tag.lookup "default")))

/-- The `restfulrequest` directive factory. -/
def restfulrequestFactory : RegisterFunction := fun apiTagValue field info =>
  if apiTagValue ≠ "" then .error ("unexpected tag value: " ++ apiTagValue)
  else if field.typ.goString ≠ "*restful.Request" then
    .error ("bad type: " ++ field.typ.goString)
  else .ok (info, some .restfulrequest)

/-- `registeredFunctionMap` as populated by `init()` in `init-register.go`. -/
def registeredFunctionMap : List (String × RegisterFunction) :=
  [("body", bodyFactory), ("doc", docFactory), ("header", headerFactory),
   ("httpmethod", httpmethodFactory), ("httppath", httppathFactory),
   ("httprequest", httprequestFactory), ("notes", notesFactory),
   ("path", pathFactory), ("produces", producesFactory),
   ("query", queryFactory), ("restfulrequest", restfulrequestFactory)]

/-! ### The field walker and the signature analyzer -/

mutual
/-- Model of `handleField`: an anonymous (embedded) field is expanded in
place by walking its own fields; otherwise the `api` tag is split into key
and value, `-` and empty tags are skipped, the key is resolved in the
registry and the factory runs, its error wrapped with the field name and its
binder (when non-nil) appended to `InputFields`.  (Go's `reflect` panics on
`NumField` of a non-struct embedded type; that panic is the error case.) -/
def handleField (info : RestfulFunctionInfo) (field : GoField) :
    Except String RestfulFunctionInfo :=
  match field with
  | .mk _ (.strct _ _ _ fields) _ true => handleFieldList info fields
  | .mk _ _ _ true => .error "reflect: NumField of non-struct type"
  | .mk fieldName typ tag false =>
    let apiTagText := (tag.lookup "api").getD ""
    if apiTagText = "" then .ok info
    else
      let kv := goSplitN2 apiTagText ":"
      if kv.1 = "-" then .ok info
      else
        match registeredFunctionMap.lookup kv.1 with
        | none => .error ("unhandled API tag: " ++ kv.1)
        | some registeredFunction =>
          match registeredFunction kv.2 (.mk fieldName typ tag false) info with
          | .error e => .error (fieldName ++ ": " ++ e)
          | .ok (info2, fn) =>
            match fn with
            | some f => .ok { info2 with inputFields := info2.inputFields ++ [⟨fieldName, f⟩] }
            | none => .ok info2

/-- The loop of `handleField`'s anonymous branch: walk a field list in
declaration order, stopping at the first error. -/
def handleFieldList (info : RestfulFunctionInfo) :
    List GoField → Except String RestfulFunctionInfo
  | [] => .ok info
  | field :: rest =>
    match handleField info field with
    | .error e => .error e
    | .ok info2 => handleFieldList info2 rest
end

/-- The metadata-field loop of `ParseRestfulFunction`: like
`handleFieldList` but wrapping each failure with the top-level field name. -/
def parseMetadataFields (info : RestfulFunctionInfo) :
    List GoField → Except String RestfulFunctionInfo
  | [] => .ok info
  | field :: rest =>
    match handleField info field with
    | .error e =>
      .error ("could not handle field " ++ goQuote field.name ++ ": " ++ e)
    | .ok info2 => parseMetadataFields info2 rest

/-- The input-parameter loop of `ParseRestfulFunction`: a parameter
satisfying `context.Context` is the context slot (at most one), any other is
the metadata slot (at most one). -/
def classifyInputs (info : RestfulFunctionInfo) (i : Nat) :
    List GoType → Except String RestfulFunctionInfo
  | [] => .ok info
  | argumentType :: rest =>
    if argumentType.implementsContext then
      if info.inContextPosition ≥ 0 then .error "multiple context.Context arguments"
      else classifyInputs { info with inContextPosition := (i : Int) } (i + 1) rest
    else
      if info.inMetadataPosition ≥ 0 then .error "multiple input arguments"
      else
        classifyInputs
          { info with inMetadataPosition := (i : Int), inMetadataType := some argumentType }
          (i + 1) rest

/-- The output-value loop of `ParseRestfulFunction`: a value satisfying
`error` is the error slot (at most one), any other is the response slot (at
most one). -/
def classifyOutputs (info : RestfulFunctionInfo) (i : Nat) :
    List GoType → Except String RestfulFunctionInfo
  | [] => .ok info
  | argumentType :: rest =>
    if argumentType.implementsError then
      if info.outErrorPosition ≥ 0 then .error "multiple error arguments"
      else classifyOutputs { info with outErrorPosition := (i : Int) } (i + 1) rest
    else
      if info.outResponsePosition ≥ 0 then .error "multiple output arguments"
      else classifyOutputs { info with outResponsePosition := (i : Int) } (i + 1) rest

/-- Model of `ParseRestfulFunction` on the embedded type of the callable
value.  (The source's `nil` guard has no counterpart: the model's input is
always a type.)  After slot classification, a zero-value response example is
captured (`reflect.New` yields a pointer value, hence `GoType.ptr`), the
metadata parameter is dereferenced one pointer layer, required to be a
struct, and its fields are walked. -/
def ParseRestfulFunction : GoType → Except String RestfulFunctionInfo
  | .func ins outs =>
    match classifyInputs {} 0 ins with
    | .error e => .error e
    | .ok info1 =>
      match classifyOutputs info1 0 outs with
      | .error e => .error e
      | .ok info2 =>
        let info3 :=
          if info2.outResponsePosition ≥ 0 then
            { info2 with
              responseExample := (outs.get? info2.outResponsePosition.toNat).map .ptr }
          else info2
        if info3.inMetadataPosition ≥ 0 then
          match ins.get? info3.inMetadataPosition.toNat with
          | none => .error "reflect: In index out of range"
          | some t =>
            let argumentType := derefOnce t
            match argumentType with
            | .strct _ _ _ fields => parseMetadataFields info3 fields
            | _ => .error ("unexpected input type: " ++ argumentType.kind.goString)
        else .ok info3
  | t => .error ("expected function; got " ++ t.kind.goString)

/-! ### Request-time model: requests, responses, errors -/

/-- Model of the inbound `*restful.Request`: looked-up path parameters,
repeated query parameters, headers, plus an oracle for body reads (the only
I/O this package performs), taking the negotiated content type and the
target field type to the outcome of the read. -/
structure Request : Type where
  method : String := ""
  urlPath : String := ""
  pathParams : List (String × String) := []
  queryParams : List (String × List String) := []
  headerParams : List (String × String) := []
  bodyRead : String → GoType → Except String GoValue := fun _ _ => .error "EOF"

/-- `req.PathParameter(name)` (empty string when absent). -/
def Request.pathParameter (req : Request) (name : String) : String :=
  (req.pathParams.lookup name).getD ""

/-- `req.QueryParameters(name)` (nil slice when absent). -/
def Request.queryParameters (req : Request) (name : String) : List String :=
  (req.queryParams.lookup name).getD []

/-- `req.HeaderParameter(name)` (empty string when absent). -/
def Request.headerParameter (req : Request) (name : String) : String :=
  (req.headerParams.lookup name).getD ""

/-- A structured entity handed to `Response.WriteHeaderAndEntity`: nil, a
plain value, or one of the error output records of `errors.go`. -/
inductive RespEntity : Type where
  | nilEntity
  | value (v : GoValue)
  | errorOutput (typeName message : String)
  | parameterErrorOutput (typeName message parameter : String)

/-- One write against the `*restful.Response` sink. -/
inductive RespEvent : Type where
  | writeHeaderAndEntity (status : Int) (entity : RespEntity)
  | setHeader (name value : String)
  | writeBody (contents : String)

/-- Model of the Go `error` values that flow through dispatch: the package's
`ErrorWriter` implementations of `errors.go`, plain errors (with their
concrete type name for `%T`), and `fmt.Errorf`-with-`%w` wrapping. -/
inductive GoError : Type where
  | apiPathParameterError (parameter message : String)
  | apiQueryParameterError (parameter message : String)
  | apiHeaderParameterError (parameter message : String)
  | apiBodyError (message : String)
  | apiResponseError (code : Int) (message : String)
  | plainError (typeName message : String)
  | wrapError (message : String) (inner : GoError)
  deriving DecidableEq, Repr

/-- `err.Error()`.  For the parameter errors this is the underlying parse
error's message (the source stores `parameterError.Error()` in both the
error and its `apiResponseError`). -/
def GoError.message : GoError → String
  | .apiPathParameterError _ m => m
  | .apiQueryParameterError _ m => m
  | .apiHeaderParameterError _ m => m
  | .apiBodyError m => m
  | .apiResponseError _ m => m
  | .plainError _ m => m
  | .wrapError m _ => m

/-- `fmt.Sprintf("%T", err)` for the modelled error values. -/
def GoError.typeName : GoError → String
  | .apiPathParameterError _ _ => "*restfulwrapper.APIPathParameterError"
  | .apiQueryParameterError _ _ => "*restfulwrapper.APIQueryParameterError"
  | .apiHeaderParameterError _ _ => "*restfulwrapper.APIHeaderParameterError"
  | .apiBodyError _ => "*restfulwrapper.APIBodyError"
  | .apiResponseError _ _ => "*restfulwrapper.APIResponseError"
  | .plainError t _ => t
  | .wrapError _ _ => "*fmt.wrapError"

/-- `errors.As(err, &errorWriter)`: the first `ErrorWriter` in the unwrap
chain.  Every `API*Error` of `errors.go` implements `ErrorWriter`; a plain
error does not; `fmt` wrapping is looked through. -/
def findErrorWriter : GoError → Option GoError
  | .plainError _ _ => none
  | .wrapError _ inner => findErrorWriter inner
  | e => some e

/-- The `WriteError` implementations of `errors.go`: each writes exactly one
status + structured body (status 400 for the body/parameter errors, the
carried code for `APIResponseError`).  `plainError`/`wrapError` are not
`ErrorWriter`s and are never dispatched here (empty write). -/
def writeErrorEvents : GoError → List RespEvent
  | .apiPathParameterError p m =>
    [.writeHeaderAndEntity 400 (.parameterErrorOutput "*restfulwrapper.APIPathParameterError" m p)]
  | .apiQueryParameterError p m =>
    [.writeHeaderAndEntity 400 (.parameterErrorOutput "*restfulwrapper.APIQueryParameterError" m p)]
  | .apiHeaderParameterError p m =>
    [.writeHeaderAndEntity 400 (.parameterErrorOutput "*restfulwrapper.APIHeaderParameterError" m p)]
  | .apiBodyError m =>
    [.writeHeaderAndEntity 400 (.errorOutput "*restfulwrapper.APIBodyError" m)]
  | .apiResponseError code m =>
    [.writeHeaderAndEntity code (.errorOutput "*restfulwrapper.APIResponseError" m)]
  | .plainError _ _ => []
  | .wrapError _ _ => []

/-- Model of `restfulFunctionWrapper`: on success the response writes of the
wrapped function stand; on error, an `ErrorWriter` in the chain renders
itself, otherwise a generic 500 `{type, message}` body is written. -/
def restfulFunctionWrapper (result : Except GoError (List RespEvent)) : List RespEvent :=
  match result with
  | .ok events => events
  | .error err =>
    match findErrorWriter err with
    | some errorWriter => writeErrorEvents errorWriter
    | none => [.writeHeaderAndEntity 500 (.errorOutput err.typeName err.message)]

/-! ### Request-time model: binder interpretation -/

/-- `reflect.Type.Elem()` of a slice type (a `named` type of slice kind
carries no element in this fragment and is outside the modelled universe). -/
def GoType.sliceElem : GoType → GoType
  | .slice e => e
  | t => t

/-- The query binder's per-value store: a pointer-kinded target allocates the
pointee and parses into it, any other target is parsed into directly. -/
def setPointerOrDirect (fieldType : GoType) (stringValue : String) :
    Except String GoValue :=
  match fieldType with
  | .ptr elem => (parseStringToSingleValue stringValue elem).map (fun v => .vPtr (some v))
  | t => parseStringToSingleValue stringValue t

/-- The request-time behaviour of the `query` binder closure: scan the
declared names in order and take the first with any value present; fall back
to the field's `default` tag attribute; for a slice-kinded field parse every
value of the winning name into successive elements, otherwise parse the first
value (if any) into the field, leaving it untouched when nothing was found. -/
def runQueryBinder (names : List String) (defaultValue : Option String)
    (req : Request) (fieldType : GoType) (v : GoValue) : Except GoError GoValue :=
  let found :=
    match names.find? (fun n => !(req.queryParameters n).isEmpty) with
    | some n => (n, req.queryParameters n)
    | none => ("", [])
  let name := found.1
  let stringValues :=
    if found.2.isEmpty then
      match defaultValue with
      | some d => [d]
      | none => []
    else found.2
  if fieldType.kind = .kSlice then
    match stringValues.mapM (fun s => setPointerOrDirect fieldType.sliceElem s) with
    | .error e => .error (.apiQueryParameterError name e)
    | .ok elems => .ok (.vSlice elems)
  else
    match stringValues with
    | [] => .ok v
    | stringValue :: _ =>
      match setPointerOrDirect fieldType stringValue with
      | .error e => .error (.apiQueryParameterError name e)
      | .ok newV => .ok newV

/-- Interpret a binder closure against the live request: `fieldType`/`v` are
the type and current value of the target field, `info` the compiled route
info the Go closures reach through their captured pointer.  The result is
the field's new value or the error the closure returns.  (The body read is
the `Request` oracle; `CanSet` guards always succeed here because the
dispatcher only hands out settable fields.) -/
def runBinder (fn : BinderSpec) (info : RestfulFunctionInfo) (req : Request)
    (fieldType : GoType) (v : GoValue) : Except GoError GoValue :=
  match fn with
  | .body allowEmpty ftype =>
    if allowEmpty then .ok v
    else
      let contentType := info.consumes.headD ""
      match req.bodyRead contentType ftype with
      | .error e => .error (.apiBodyError e)
      | .ok newV => .ok newV
  | .doc => .ok (.vStr info.doc)
  | .header name =>
    match parseStringToSingleValue (req.headerParameter name) fieldType with
    | .error e => .error (.apiHeaderParameterError name e)
    | .ok newV => .ok newV
  | .httpmethod => .ok (.vStr req.method)
  | .httppath => .ok (.vStr req.urlPath)
  | .httprequest => .ok .vHTTPRequest
  | .notes => .ok (.vStr info.notes)
  | .path name =>
    match parseStringToSingleValue (req.pathParameter name) fieldType with
    | .error e => .error (.apiPathParameterError name e)
    | .ok newV => .ok newV
  | .produces value => .ok (.vStr value)
  | .query names defaultValue => runQueryBinder names defaultValue req fieldType v
  | .restfulrequest => .ok .vRestfulRequest

/-! ### Request-time model: `CreateFunctionWithError` and dispatch -/

/-- The fresh zero-valued metadata record, as named fields with their
declared types. -/
def zeroStructState (fields : List GoField) : List (String × GoType × GoValue) :=
  fields.map (fun f => (f.name, f.typ, zeroValue f.typ))

/-- The binder loop of `CreateFunctionWithError`: each input field's binder
runs in order against the current field value, the loop aborting at the
first error.  (A name that is not a field of the record would be an invalid
`FieldByName` result; compiled routes never produce one, and the model skips
such an entry.) -/
def bindInputFields (info : RestfulFunctionInfo) (req : Request) :
    List InputField → List (String × GoType × GoValue) →
      Except GoError (List (String × GoType × GoValue))
  | [], state => .ok state
  | inputField :: rest, state =>
    match state.find? (fun e => e.1 == inputField.name) with
    | none => bindInputFields info req rest state
    | some (_, t, v) =>
      match runBinder inputField.function info req t v with
      | .error err => .error err
      | .ok newV =>
        bindInputFields info req rest
          (state.map (fun e => if e.1 == inputField.name then (e.1, t, newV) else e))

/-- The handler's non-error return value: absent, a value implementing the
self-rendering `Writer` capability (carrying the writes its `Write` method
performs), or a plain value. -/
inductive ResponseValue : Type where
  | writerValue (events : List RespEvent)
  | plainValue (v : GoValue)

/-- What a handler call returns, read off the result slots. -/
structure HandlerOutput : Type where
  response : Option ResponseValue := none
  error : Option GoError := none

/-- The handler as the dispatcher sees it: from the metadata argument (absent
when no metadata slot) to its outputs.  The context argument carries no
information in this model. -/
def Handler : Type := Option GoValue → HandlerOutput

/-- Which rendering branch the success path of `CreateFunctionWithError`
took. -/
inductive RenderPath : Type where
  | wroteNil
  | usedWriter
  | wroteValue
  deriving DecidableEq, Repr

/-- Model of `ErrorHandler` (declared outside the sources in scope; its use
in `CreateFunctionWithError` fixes the shape: it may replace a handler error
with a new one, `nil` keeping the original). -/
def ErrorHandlerModel : Type := GoError → Option GoError

/-- The bind phase of the function built by `CreateFunctionWithError`: for a
metadata slot, allocate the zero record, check the (dereferenced) type is a
struct, and run the binder loop; the metadata argument is the resulting
record.  (With a pointer-typed metadata parameter the source allocates a nil
pointer; its `FieldByName` would panic as soon as one input field exists —
modelled as an error —, and with none the nil pointer is passed through.) -/
def bindPhase (info : RestfulFunctionInfo) (req : Request) :
    Except GoError (Option GoValue) :=
  if info.inMetadataPosition ≥ 0 then
    match info.inMetadataType with
    | none => .error (.plainError "*errors.errorString" "unexpected input type: invalid")
    | some t =>
      match derefOnce t with
      | .strct _ _ _ fields =>
        match t with
        | .ptr _ =>
          if info.inputFields.isEmpty then .ok (some (zeroValue t))
          else .error (.plainError "*reflect.ValueError"
            "reflect: call of reflect.Value.FieldByName on ptr Value")
        | _ =>
          match bindInputFields info req info.inputFields (zeroStructState fields) with
          | .error e => .error e
          | .ok st => .ok (some (.vStruct (st.map (fun e => (e.1, e.2.2)))))
      | other =>
        .error (.plainError "*errors.errorString"
          ("unexpected input type: " ++ other.kind.goString))
  else .ok none

/-- Model of the function returned by `CreateFunctionWithError`: bind, then
invoke the handler (second component: whether it was invoked), then classify
the outputs — a handler error (possibly rewritten by the error handler) is
returned to the wrapper, otherwise a response is rendered: the `Writer`
capability renders itself, a plain value is serialized with status 200, and
an absent response value or slot yields an empty 200. -/
def functionWithError (info : RestfulFunctionInfo) (handler : Handler)
    (errorHandler : Option ErrorHandlerModel) (req : Request) :
    Except GoError (List RespEvent × RenderPath) × Bool :=
  match bindPhase info req with
  | .error e => (.error e, false)
  | .ok metaArg =>
    let output := handler metaArg
    let errValue : Option GoError :=
      if info.outErrorPosition ≥ 0 then output.error else none
    match errValue with
    | some err =>
      let finalErr :=
        match errorHandler with
        | some eh =>
          match eh err with
          | some newErr => newErr
          | none => err
        | none => err
      (.error finalErr, true)
    | none =>
      if info.outResponsePosition ≥ 0 then
        match output.response with
        | none => (.ok ([.writeHeaderAndEntity 200 .nilEntity], .wroteNil), true)
        | some (.writerValue events) => (.ok (events, .usedWriter), true)
        | some (.plainValue v) =>
          (.ok ([.writeHeaderAndEntity 200 (.value v)], .wroteValue), true)
      else (.ok ([.writeHeaderAndEntity 200 .nilEntity], .wroteNil), true)

/-- Full dispatch of one request: the wrapped function runs and
`restfulFunctionWrapper` renders its outcome.  Returns the response writes
and whether the handler was invoked. -/
def dispatch (info : RestfulFunctionInfo) (handler : Handler)
    (errorHandler : Option ErrorHandlerModel) (req : Request) :
    List RespEvent × Bool :=
  let result := functionWithError info handler errorHandler req
  (restfulFunctionWrapper (result.1.map (fun r => r.1)), result.2)

/-! ### Derived notions used by the statements below -/

/-- The fields of a struct type (empty for any other type). -/
def GoType.structFields : GoType → List GoField
  | .strct _ _ _ fields => fields
  | _ => []

/-- How many parameters satisfy the context capability. -/
def countContextParams (ins : List GoType) : Nat :=
  (ins.filter (fun t => t.implementsContext)).length

/-- How many parameters do not satisfy the context capability (candidate
metadata parameters). -/
def countMetadataParams (ins : List GoType) : Nat :=
  (ins.filter (fun t => !t.implementsContext)).length

/-- How many return values satisfy the error capability. -/
def countErrorResults (outs : List GoType) : Nat :=
  (outs.filter (fun t => t.implementsError)).length

/-- How many return values do not satisfy the error capability (candidate
response values). -/
def countResponseResults (outs : List GoType) : Nat :=
  (outs.filter (fun t => !t.implementsError)).length

/-- The index of the first element satisfying `p`, `-1` when there is none
(the source's position convention). -/
def findIdxN (p : GoType → Bool) : List GoType → Option Nat
  | [] => none
  | t :: rest => if p t then some 0 else (findIdxN p rest).map (· + 1)

def idxOrNeg (p : GoType → Bool) (l : List GoType) : Int :=
  match findIdxN p l with
  | some j => (j : Int)
  | none => -1

/-- A slot position after scanning a list whose local first hit is `o`,
starting the global numbering at `i`; `base` when the list has no hit. -/
def posFrom (base : Int) (i : Nat) : Option Nat → Int
  | some j => ((i + j : Nat) : Int)
  | none => base

/-- `o` unless it is `none`, then `base` (the unchanged field). -/
def optOr (o base : Option GoType) : Option GoType :=
  match o with
  | some t => some t
  | none => base

/-- The route info right after the input-parameter loop (from the fresh
info). -/
def inputsClassified (ins : List GoType) : RestfulFunctionInfo :=
  { inContextPosition := idxOrNeg (fun t => t.implementsContext) ins
    inMetadataPosition := idxOrNeg (fun t => !t.implementsContext) ins
    inMetadataType := ins.find? (fun t => !t.implementsContext) }

/-- The route info as it stands when `ParseRestfulFunction` reaches the
metadata walk: slot positions and examples filled in, everything else
default. -/
def preWalkInfo (ins outs : List GoType) : RestfulFunctionInfo :=
  let respPos := idxOrNeg (fun t => !t.implementsError) outs
  { inContextPosition := idxOrNeg (fun t => t.implementsContext) ins
    inMetadataPosition := idxOrNeg (fun t => !t.implementsContext) ins
    inMetadataType := ins.find? (fun t => !t.implementsContext)
    outErrorPosition := idxOrNeg (fun t => t.implementsError) outs
    outResponsePosition := respPos
    responseExample := if respPos ≥ 0 then (outs.get? respPos.toNat).map .ptr else none }

/-- The metadata parameter (when present) resolves to a struct whose fields
the directive walker handles without error. -/
def metadataWalkOK (ins outs : List GoType) : Prop :=
  match ins.find? (fun t => !t.implementsContext) with
  | none => True
  | some t =>
    match derefOnce t with
    | .strct _ _ _ fields =>
      ∃ info', parseMetadataFields (preWalkInfo ins outs) fields = .ok info'
    | _ => False

/-- The external names of the registered path parameters, in order. -/
def RestfulFunctionInfo.pathNames (info : RestfulFunctionInfo) : List String :=
  info.pathParameters.map (fun p => p.name)

/-- The external names of the registered query parameters, in order. -/
def RestfulFunctionInfo.queryNames (info : RestfulFunctionInfo) : List String :=
  info.queryParameters.map (fun p => p.name)

/-- The external names of the registered header parameters, in order. -/
def RestfulFunctionInfo.headerNames (info : RestfulFunctionInfo) : List String :=
  info.headerParameters.map (fun p => p.name)

mutual
/-- The external parameter names a field declares, as
`(path names, query names, header names)`; an embedded struct contributes
the names of its own fields. -/
def declaredNames : GoField → List String × List String × List String
  | .mk _ (.strct _ _ _ fields) _ true => declaredNamesList fields
  | .mk _ _ _ true => ([], [], [])
  | .mk _ _ tag false =>
    let apiTagText := (tag.lookup "api").getD ""
    if apiTagText = "" then ([], [], [])
    else
      let kv := goSplitN2 apiTagText ":"
      if kv.1 = "path" then ([kv.2], [], [])
      else if kv.1 = "query" then ([], (goSplit kv.2 ",").map goTrimSpace, [])
      else if kv.1 = "header" then ([], [], [kv.2])
      else ([], [], [])

/-- `declaredNames` over a field list, concatenated in declaration order. -/
def declaredNamesList : List GoField → List String × List String × List String
  | [] => ([], [], [])
  | f :: rest =>
    let a := declaredNames f
    let b := declaredNamesList rest
    (a.1 ++ b.1, a.2.1 ++ b.2.1, a.2.2 ++ b.2.2)
end

mutual
/-- Every `query` directive's own comma-separated name list is free of
repetitions (embedded structs checked recursively). -/
def queryTagNodup : GoField → Prop
  | .mk _ (.strct _ _ _ fields) _ true => queryTagNodupList fields
  | .mk _ _ _ true => True
  | .mk _ _ tag false =>
    let apiTagText := (tag.lookup "api").getD ""
    let kv := goSplitN2 apiTagText ":"
    if kv.1 = "query" then ((goSplit kv.2 ",").map goTrimSpace).Nodup else True

/-- `queryTagNodup` over a field list. -/
def queryTagNodupList : List GoField → Prop
  | [] => True
  | f :: rest => queryTagNodup f ∧ queryTagNodupList rest
end

/-- The classification slots of the route info are untouched. -/
def PreservesSlots (info info' : RestfulFunctionInfo) : Prop :=
  info'.inContextPosition = info.inContextPosition ∧
  info'.inMetadataPosition = info.inMetadataPosition ∧
  info'.outErrorPosition = info.outErrorPosition ∧
  info'.outResponsePosition = info.outResponsePosition

/-- Parsing one query value into the field: pointer fields allocate the
pointee; a parse failure becomes a query-parameter error naming the winning
query-parameter name. -/
def parseQueryValueInto (name stringValue : String) (fieldType : GoType) :
    Except GoError GoValue :=
  match setPointerOrDirect fieldType stringValue with
  | .error e => .error (.apiQueryParameterError name e)
  | .ok newV => .ok newV

/-- The effect of one walk step on the route info: slots untouched, the
declared `(path, query, header)` external names appended in order to the
respective registered sequences, uniqueness of the path and header names
preserved, and uniqueness of the query names preserved when `qOK` (the
directive's own name lists are repetition-free) holds. -/
def WalkEffects (info info' : RestfulFunctionInfo)
    (names : List String × List String × List String) (qOK : Prop) : Prop :=
  PreservesSlots info info' ∧
  info'.pathNames = info.pathNames ++ names.1 ∧
  info'.queryNames = info.queryNames ++ names.2.1 ∧
  info'.headerNames = info.headerNames ++ names.2.2 ∧
  (info.pathNames.Nodup → info'.pathNames.Nodup) ∧
  (info.headerNames.Nodup → info'.headerNames.Nodup) ∧
  (info.queryNames.Nodup → qOK → info'.queryNames.Nodup)

/-! ## Walker unfolding lemmas -/

theorem handleFieldList_nil (info : RestfulFunctionInfo) :
    handleFieldList info [] = .ok info := by
  simp [handleFieldList]

theorem handleFieldList_cons (info : RestfulFunctionInfo) (f : GoField)
    (rest : List GoField) :
    handleFieldList info (f :: rest) =
      match handleField info f with
      | .error e => .error e
      | .ok info2 => handleFieldList info2 rest := by
  simp [handleFieldList]

theorem handleFieldList_append (info : RestfulFunctionInfo) (xs ys : List GoField) :
    handleFieldList info (xs ++ ys) =
      match handleFieldList info xs with
      | .error e => .error e
      | .ok info2 => handleFieldList info2 ys := by
  induction xs generalizing info with
  | nil => simp [handleFieldList_nil]
  | cons f rest ih =>
    rw [List.cons_append, handleFieldList_cons, handleFieldList_cons]
    cases handleField info f with
    | error e => rfl
    | ok info2 => exact ih info2

theorem handleField_anonymous_struct (info : RestfulFunctionInfo)
    (fieldName typeName : String) (implCtx implErr : Bool)
    (tag : List (String × String)) (fields : List GoField) :
    handleField info (.mk fieldName (.strct typeName implCtx implErr fields) tag true) =
      handleFieldList info fields := by
  simp [handleField]

/-- C2: for every metadata record type that embeds a record type (anonymous
field), walking it produces exactly the same result — binder list, parameter
lists, and all accumulated route metadata — as walking the record type with
the embedded type's fields declared directly in place of the embedded
field. -/
theorem embedded_struct_walks_like_inlined (info : RestfulFunctionInfo)
    (fieldName typeName : String) (implCtx implErr : Bool)
    (tag : List (String × String)) (embeddedFields before after : List GoField) :
    handleFieldList info
        (before ++
          GoField.mk fieldName (.strct typeName implCtx implErr embeddedFields) tag true ::
            after) =
      handleFieldList info (before ++ (embeddedFields ++ after)) := by
  rw [handleFieldList_append, handleFieldList_append]
  cases handleFieldList info before with
  | error e => rfl
  | ok info2 =>
    show handleFieldList info2
        (GoField.mk fieldName (.strct typeName implCtx implErr embeddedFields) tag true ::
          after) =
      handleFieldList info2 (embeddedFields ++ after)
    rw [handleFieldList_cons, handleField_anonymous_struct, handleFieldList_append]

/-! ## The registry (`register.go`) -/

theorem lookup_append {α β : Type} [BEq α] (l1 l2 : List (α × β)) (a : α) :
    (l1 ++ l2).lookup a =
      match l1.lookup a with
      | some b => some b
      | none => l2.lookup a := by
  induction l1 with
  | nil => simp [List.lookup]
  | cons p t ih =>
    rw [List.cons_append]
    cases p with
    | mk k v =>
      simp only [List.lookup]
      cases a == k with
      | true => rfl
      | false => simpa using ih

/-- C9: registering an already-registered directive key fails fatally (the
panic flag) and leaves the registry unchanged; registering two distinct
fresh keys succeeds both times and leaves both factories independently
retrievable. -/
theorem register_duplicate_fails_distinct_keys_coexist {α : Type}
    (m : List (String × α)) (k : String) (f : α)
    (k1 k2 : String) (f1 f2 : α)
    (hdup : (m.lookup k).isSome)
    (hne : k1 ≠ k2)
    (h1 : (m.lookup k1).isNone) (h2 : (m.lookup k2).isNone) :
    Register m k f = (m, true) ∧
    (Register m k1 f1).2 = false ∧
    (Register (Register m k1 f1).1 k2 f2).2 = false ∧
    (Register (Register m k1 f1).1 k2 f2).1.lookup k1 = some f1 ∧
    (Register (Register m k1 f1).1 k2 f2).1.lookup k2 = some f2 := by
  have h1' : m.lookup k1 = none := Option.eq_none_iff_forall_not_mem.mpr
    (by intro b hb; simp [Option.isNone_iff_eq_none.mp h1] at hb)
  have h2' : m.lookup k2 = none := Option.eq_none_iff_forall_not_mem.mpr
    (by intro b hb; simp [Option.isNone_iff_eq_none.mp h2] at hb)
  have hk21 : (k2 == k1) = false := by
    simp [Ne.symm hne]
  have hr1 : Register m k1 f1 = (m ++ [(k1, f1)], false) := by
    simp [Register, h1']
  have hlook2 : (m ++ [(k1, f1)]).lookup k2 = none := by
    rw [lookup_append, h2']
    simp [List.lookup, hk21]
  refine ⟨by simp [Register, hdup], ?_, ?_, ?_, ?_⟩
  · rw [hr1]
  · rw [hr1]; simp [Register, hlook2]
  · rw [hr1]; simp only [Register, hlook2, Option.isSome_none, Bool.false_eq_true,
      if_false]
    rw [List.append_assoc, lookup_append, h1']
    simp [List.lookup]
  · rw [hr1]; simp only [Register, hlook2, Option.isSome_none, Bool.false_eq_true,
      if_false]
    rw [List.append_assoc, lookup_append, h2']
    simp [List.lookup, hk21]

/-- Witness for C9 at a concrete registry state. -/
theorem register_duplicate_fails_distinct_keys_coexist_witness :
    Register [("body", (0 : Nat))] "body" 7 = ([("body", 0)], true) ∧
    (Register [("body", (0 : Nat))] "path" 1).2 = false ∧
    (Register (Register [("body", (0 : Nat))] "path" 1).1 "query" 2).2 = false ∧
    (Register (Register [("body", (0 : Nat))] "path" 1).1 "query" 2).1.lookup "path" =
      some 1 ∧
    (Register (Register [("body", (0 : Nat))] "path" 1).1 "query" 2).1.lookup "query" =
      some 2 :=
  register_duplicate_fails_distinct_keys_coexist [("body", 0)] "body" 7 "path" "query" 1 2
    (by decide) (by decide) (by decide) (by decide)

/-! ## The query binder (`init-register.go`, `query` directive) -/

/-- C3: for a (non-sequence) field declared `query:key1,oldKey`, the binder
parses `key1`'s first value when `key1` has any value (regardless of
`oldKey`), otherwise `oldKey`'s first value when it has any, otherwise the
field's declared `default` attribute value. -/
theorem query_binder_name_fallback_and_default
    (n1 n2 : String) (defaultValue : Option String) (req : Request)
    (fieldType : GoType) (v : GoValue)
    (hkind : fieldType.kind ≠ .kSlice) :
    (∀ s ss, req.queryParameters n1 = s :: ss →
      runQueryBinder [n1, n2] defaultValue req fieldType v =
        parseQueryValueInto n1 s fieldType) ∧
    (req.queryParameters n1 = [] → ∀ s ss, req.queryParameters n2 = s :: ss →
      runQueryBinder [n1, n2] defaultValue req fieldType v =
        parseQueryValueInto n2 s fieldType) ∧
    (req.queryParameters n1 = [] → req.queryParameters n2 = [] →
      ∀ d, defaultValue = some d →
        runQueryBinder [n1, n2] defaultValue req fieldType v =
          parseQueryValueInto "" d fieldType) := by
  refine ⟨?_, ?_, ?_⟩
  · intro s ss h1
    simp [runQueryBinder, List.find?, h1, hkind, parseQueryValueInto]
  · intro h1 s ss h2
    simp [runQueryBinder, List.find?, h1, h2, hkind, parseQueryValueInto]
  · intro h1 h2 d hd
    simp [runQueryBinder, List.find?, h1, h2, hd, hkind, parseQueryValueInto]

/-- Witness for C3: `key1` carries `"5"` and `oldKey` carries `"9"`; the
binder parses `key1`'s first value (an `int` field receives 5). -/
theorem query_binder_name_fallback_and_default_witness :
    runQueryBinder ["key1", "oldKey"] (some "7")
        { queryParams := [("key1", ["5", "6"]), ("oldKey", ["9"])] } .int (.vInt 0) =
      parseQueryValueInto "key1" "5" .int ∧
    parseQueryValueInto "key1" "5" GoType.int = .ok (.vInt 5) :=
  ⟨(query_binder_name_fallback_and_default "key1" "oldKey" (some "7")
      { queryParams := [("key1", ["5", "6"]), ("oldKey", ["9"])] } .int (.vInt 0)
      (by decide)).1 "5" ["6"] (by rfl),
   by rfl⟩

/-- C10: for a non-sequence field with a query directive, when none of the
declared names has any value in the request and no `default` tag attribute
is declared, the binder succeeds and leaves the field value untouched. -/
theorem query_binder_absent_names_leave_zero_value
    (names : List String) (req : Request) (fieldType : GoType) (v : GoValue)
    (habsent : ∀ n ∈ names, req.queryParameters n = [])
    (hkind : fieldType.kind ≠ .kSlice) :
    runQueryBinder names none req fieldType v = .ok v := by
  have hfind : names.find? (fun n => !(req.queryParameters n).isEmpty) = none := by
    apply List.find?_eq_none.mpr
    intro n hn
    simp [habsent n hn]
  simp [runQueryBinder, hfind, hkind]

/-- Witness for C10: a request with values only under an unrelated name
leaves an `int` field at its zero value. -/
theorem query_binder_absent_names_leave_zero_value_witness :
    runQueryBinder ["key1", "oldKey"] none { queryParams := [("other", ["3"])] }
        .int (.vInt 0) = .ok (.vInt 0) :=
  query_binder_absent_names_leave_zero_value ["key1", "oldKey"]
    { queryParams := [("other", ["3"])] } .int (.vInt 0)
    (by intro n hn; fin_cases hn <;> rfl) (by decide)

/-! ## Dispatch lemmas -/

theorem runBinder_inputFields_irrel (fn : BinderSpec) (info : RestfulFunctionInfo)
    (x : List InputField) (req : Request) (t : GoType) (v : GoValue) :
    runBinder fn { info with inputFields := x } req t v = runBinder fn info req t v := by
  cases fn <;> simp [runBinder]

theorem bindInputFields_inputFields_irrel (info : RestfulFunctionInfo)
    (x : List InputField) (req : Request) (l : List InputField)
    (st : List (String × GoType × GoValue)) :
    bindInputFields { info with inputFields := x } req l st =
      bindInputFields info req l st := by
  induction l generalizing st with
  | nil => rfl
  | cons f rest ih =>
    simp only [bindInputFields]
    cases st.find? (fun e => e.1 == f.name) with
    | none => exact ih st
    | some entry =>
      obtain ⟨a, t, v⟩ := entry
      dsimp only
      rw [runBinder_inputFields_irrel]
      cases runBinder f.function info req t v with
      | error e => rfl
      | ok newV => exact ih _

theorem bindInputFields_append (info : RestfulFunctionInfo) (req : Request)
    (xs ys : List InputField) (st : List (String × GoType × GoValue)) :
    bindInputFields info req (xs ++ ys) st =
      match bindInputFields info req xs st with
      | .error e => .error e
      | .ok st2 => bindInputFields info req ys st2 := by
  induction xs generalizing st with
  | nil => rfl
  | cons f rest ih =>
    simp only [List.cons_append, bindInputFields]
    cases st.find? (fun e => e.1 == f.name) with
    | none => exact ih st
    | some entry =>
      obtain ⟨a, t, v⟩ := entry
      dsimp only
      cases runBinder f.function info req t v with
      | error e => rfl
      | ok newV => exact ih _

/-- `bindPhase` on a (non-pointer) struct metadata slot is the binder loop
over the zero record. -/
theorem bindPhase_eq_of_struct (info : RestfulFunctionInfo) (req : Request)
    (typeName : String) (implCtx implErr : Bool) (fields : List GoField)
    (hPos : info.inMetadataPosition ≥ 0)
    (hTy : info.inMetadataType = some (.strct typeName implCtx implErr fields)) :
    bindPhase info req =
      match bindInputFields info req info.inputFields (zeroStructState fields) with
      | .error e => .error e
      | .ok st => .ok (some (.vStruct (st.map (fun e => (e.1, e.2.2))))) := by
  unfold bindPhase
  rw [hTy, if_pos hPos]
  rfl

/-- If one binder in the list fails, the whole bound function fails with that
binder's error before the handler is invoked — regardless of the binders
after it. -/
theorem functionWithError_error_of_binder_failure
    (info : RestfulFunctionInfo) (handler : Handler)
    (errorHandler : Option ErrorHandlerModel) (req : Request)
    (typeName : String) (implCtx implErr : Bool) (fields : List GoField)
    (pre post : List InputField) (bad : InputField)
    (st : List (String × GoType × GoValue)) (entry : String × GoType × GoValue)
    (e : GoError)
    (hPos : info.inMetadataPosition ≥ 0)
    (hTy : info.inMetadataType = some (.strct typeName implCtx implErr fields))
    (hPre : bindInputFields info req pre (zeroStructState fields) = .ok st)
    (hFind : st.find? (fun x => x.1 == bad.name) = some entry)
    (hBad : runBinder bad.function info req entry.2.1 entry.2.2 = .error e) :
    functionWithError { info with inputFields := pre ++ bad :: post } handler
        errorHandler req = (.error e, false) := by
  obtain ⟨a, t, v⟩ := entry
  have hlist :
      bindInputFields info req (pre ++ bad :: post) (zeroStructState fields) =
        .error e := by
    rw [bindInputFields_append, hPre]
    simp only [bindInputFields, hFind]
    rw [show runBinder bad.function info req t v = .error e from hBad]
  have hbind :
      bindPhase { info with inputFields := pre ++ bad :: post } req = .error e := by
    rw [bindPhase_eq_of_struct { info with inputFields := pre ++ bad :: post } req
      typeName implCtx implErr fields hPos hTy]
    rw [show ({ info with inputFields := pre ++ bad :: post } :
        RestfulFunctionInfo).inputFields = pre ++ bad :: post from rfl]
    rw [bindInputFields_inputFields_irrel, hlist]
  simp only [functionWithError, hbind]

/-- C6: if any binder in a compiled route's ordered binder list fails on a
request, no later binder runs (the outcome is the same for every
continuation of the list), the handler is never invoked, and that binder's
error is exactly what the error-rendering wrapper receives for the
request. -/
theorem binder_failure_is_fail_fast
    (info : RestfulFunctionInfo) (handler : Handler)
    (errorHandler : Option ErrorHandlerModel) (req : Request)
    (typeName : String) (implCtx implErr : Bool) (fields : List GoField)
    (pre : List InputField) (bad : InputField)
    (st : List (String × GoType × GoValue)) (entry : String × GoType × GoValue)
    (e : GoError)
    (hPos : info.inMetadataPosition ≥ 0)
    (hTy : info.inMetadataType = some (.strct typeName implCtx implErr fields))
    (hPre : bindInputFields info req pre (zeroStructState fields) = .ok st)
    (hFind : st.find? (fun x => x.1 == bad.name) = some entry)
    (hBad : runBinder bad.function info req entry.2.1 entry.2.2 = .error e) :
    ∀ post : List InputField,
      dispatch { info with inputFields := pre ++ bad :: post } handler errorHandler
          req =
        (restfulFunctionWrapper (.error e), false) := by
  intro post
  have h := functionWithError_error_of_binder_failure info handler errorHandler req
    typeName implCtx implErr fields pre post bad st entry e hPos hTy hPre hFind hBad
  simp [dispatch, h, Except.map]

/-- Witness for C6: a route with a single header binder on an `int` field
and a request without that header: binding fails, the handler is not
invoked, and the header-parameter error is rendered. -/
theorem binder_failure_is_fail_fast_witness :
    dispatch
        { inMetadataPosition := 0,
          inMetadataType :=
            some (.strct "M" false false [.mk "N" .int [] false]),
          inputFields := [] ++ ⟨"N", .header "k"⟩ :: [] }
        (fun _ => {}) none {} =
      (restfulFunctionWrapper
        (.error (.apiHeaderParameterError "k"
          (goSyntaxError "ParseInt" ""))), false) :=
  binder_failure_is_fail_fast
    { inMetadataPosition := 0,
      inMetadataType := some (.strct "M" false false [.mk "N" .int [] false]) }
    (fun _ => {}) none {} "M" false false [.mk "N" .int [] false]
    [] ⟨"N", .header "k"⟩ (zeroStructState [.mk "N" .int [] false])
    ("N", GoType.int, GoValue.vInt 0)
    (.apiHeaderParameterError "k" (goSyntaxError "ParseInt" ""))
    (by decide) rfl rfl
    (by simp [zeroStructState, zeroValue, GoField.name, GoField.typ, List.find?])
    (by simp [runBinder, Request.headerParameter, parseStringToSingleValue, goParseInt,
      decimalDigits?, goSyntaxError, Except.map]) []

/-- C7: when the bind phase succeeds and the handler's non-error return
value implements the self-rendering `Writer` capability (and no error is
returned through an error slot), dispatch delegates rendering entirely to
that value's `Write` method: the response events are exactly the value's own
writes, and the generic serialization branch is not taken. -/
theorem writer_output_renders_itself
    (info : RestfulFunctionInfo) (handler : Handler)
    (errorHandler : Option ErrorHandlerModel) (req : Request)
    (metaArg : Option GoValue) (events : List RespEvent)
    (hBind : bindPhase info req = .ok metaArg)
    (hResp : (handler metaArg).response = some (.writerValue events))
    (hErr : info.outErrorPosition ≥ 0 → (handler metaArg).error = none)
    (hRespPos : info.outResponsePosition ≥ 0) :
    functionWithError info handler errorHandler req = (.ok (events, .usedWriter), true) ∧
    dispatch info handler errorHandler req = (events, true) := by
  have hfn : functionWithError info handler errorHandler req =
      (.ok (events, .usedWriter), true) := by
    simp only [functionWithError, hBind]
    have herrv : (if info.outErrorPosition ≥ 0 then (handler metaArg).error else none) =
        none := by
      by_cases h : info.outErrorPosition ≥ 0
      · simp [h, hErr h]
      · simp [h]
    simp only [herrv]
    rw [if_pos hRespPos]
    simp [hResp]
  exact ⟨hfn, by simp [dispatch, hfn, restfulFunctionWrapper, Except.map]⟩

/-- Witness for C7: a route with no metadata slot whose handler returns a
self-rendering value that sets a header and writes a raw body; dispatch's
final response is exactly those two writes. -/
theorem writer_output_renders_itself_witness :
    functionWithError { outResponsePosition := 0 }
        (fun _ =>
          { response := some (.writerValue
              [.setHeader "Location" "/elsewhere", .writeBody "moved"]) })
        none {} =
      (.ok ([.setHeader "Location" "/elsewhere", .writeBody "moved"], .usedWriter),
        true) ∧
    dispatch { outResponsePosition := 0 }
        (fun _ =>
          { response := some (.writerValue
              [.setHeader "Location" "/elsewhere", .writeBody "moved"]) })
        none {} =
      ([.setHeader "Location" "/elsewhere", .writeBody "moved"], true) :=
  writer_output_renders_itself { outResponsePosition := 0 }
    (fun _ =>
      { response := some (.writerValue
          [.setHeader "Location" "/elsewhere", .writeBody "moved"]) })
    none {} none [.setHeader "Location" "/elsewhere", .writeBody "moved"]
    (by simp [bindPhase]) rfl (fun h => rfl) (by decide)

/-- C4: for a route whose binder list reaches a `path:<name>` binder on a
field whose value fails to parse (for example a non-numeric segment for an
integer-typed field), dispatch writes exactly one response: a 400 status
with a structured body carrying the parameter name and the underlying parse
failure message — and the handler is never invoked. -/
theorem path_parameter_parse_failure_writes_400
    (info : RestfulFunctionInfo) (handler : Handler)
    (errorHandler : Option ErrorHandlerModel) (req : Request)
    (typeName : String) (implCtx implErr : Bool) (fields : List GoField)
    (pre : List InputField) (fieldName paramName : String)
    (st : List (String × GoType × GoValue)) (entry : String × GoType × GoValue)
    (m : String)
    (hPos : info.inMetadataPosition ≥ 0)
    (hTy : info.inMetadataType = some (.strct typeName implCtx implErr fields))
    (hPre : bindInputFields info req pre (zeroStructState fields) = .ok st)
    (hFind : st.find? (fun x => x.1 == fieldName) = some entry)
    (hParse : parseStringToSingleValue (req.pathParameter paramName) entry.2.1 =
      .error m) :
    ∀ post : List InputField,
      dispatch
          { info with inputFields := pre ++ ⟨fieldName, .path paramName⟩ :: post }
          handler errorHandler req =
        ([.writeHeaderAndEntity 400
            (.parameterErrorOutput "*restfulwrapper.APIPathParameterError" m
              paramName)],
          false) := by
  intro post
  have hBad : runBinder (BinderSpec.path paramName) info req entry.2.1 entry.2.2 =
      .error (.apiPathParameterError paramName m) := by
    simp [runBinder, hParse]
  have h := functionWithError_error_of_binder_failure info handler errorHandler req
    typeName implCtx implErr fields pre post ⟨fieldName, .path paramName⟩ st entry
    (.apiPathParameterError paramName m) hPos hTy hPre hFind hBad
  simp [dispatch, h, Except.map, restfulFunctionWrapper, findErrorWriter,
    writeErrorEvents]

/-- Witness for C4, mirroring the repository's own test: `path:id` on an
`int` field and path value `"bogus"` produce one 400 response whose body
reports type `*restfulwrapper.APIPathParameterError`, the `strconv` message,
and parameter `id`, without invoking the handler. -/
theorem path_parameter_parse_failure_writes_400_witness :
    dispatch
        { inMetadataPosition := 0,
          inMetadataType :=
            some (.strct "M" false false [.mk "ID" .int [("api", "path:id")] false]),
          inputFields := [] ++ ⟨"ID", .path "id"⟩ :: [] }
        (fun _ => {}) none { pathParams := [("id", "bogus")] } =
      ([.writeHeaderAndEntity 400
          (.parameterErrorOutput "*restfulwrapper.APIPathParameterError"
            "strconv.ParseInt: parsing \"bogus\": invalid syntax" "id")],
        false) :=
  path_parameter_parse_failure_writes_400
    { inMetadataPosition := 0,
      inMetadataType :=
        some (.strct "M" false false [.mk "ID" .int [("api", "path:id")] false]) }
    (fun _ => {}) none { pathParams := [("id", "bogus")] } "M" false false
    [.mk "ID" .int [("api", "path:id")] false] [] "ID" "id"
    (zeroStructState [.mk "ID" .int [("api", "path:id")] false])
    ("ID", GoType.int, GoValue.vInt 0)
    "strconv.ParseInt: parsing \"bogus\": invalid syntax"
    (by decide) rfl rfl
    (by simp [zeroStructState, zeroValue, GoField.name, GoField.typ, List.find?])
    (by simp [Request.pathParameter, parseStringToSingleValue, goParseInt,
      decimalDigits?, goSyntaxError, goQuote, List.lookup, Except.map]) []

/-! ## Factory effect lemmas (build-time behaviour of each directive) -/

theorem lookup_mem {α β : Type} [BEq α] [LawfulBEq α] {l : List (α × β)} {a : α}
    {b : β} (h : l.lookup a = some b) : (a, b) ∈ l := by
  induction l with
  | nil => simp [List.lookup] at h
  | cons p t ih =>
    obtain ⟨k, w⟩ := p
    simp only [List.lookup] at h
    cases hk : (a == k) with
    | true =>
      rw [hk] at h
      simp only [Option.some.injEq] at h
      subst h
      have := eq_of_beq hk
      subst this
      exact List.mem_cons_self _ _
    | false =>
      rw [hk] at h
      exact List.mem_cons_of_mem _ (ih h)

theorem any_name_false_not_mem {γ : Type} (nameOf : γ → String) {l : List γ}
    {v : String} (h : l.any (fun item => nameOf item == v) = false) :
    v ∉ l.map nameOf := by
  intro hv
  rcases List.mem_map.mp hv with ⟨x, hx, hxv⟩
  have hx' : l.any (fun item => nameOf item == v) = true :=
    List.any_eq_true.mpr ⟨x, hx, by simp [hxv]⟩
  rw [h] at hx'
  cases hx'

theorem bodyFactory_ok {v : String} {f : GoField} {info info' : RestfulFunctionInfo}
    {b : Option BinderSpec} (h : bodyFactory v f info = .ok (info', b)) :
    info'.pathParameters = info.pathParameters ∧
    info'.queryParameters = info.queryParameters ∧
    info'.headerParameters = info.headerParameters ∧
    PreservesSlots info info' := by
  unfold bodyFactory at h
  cases hp : (if v.length > 0 then parseBodyTagParts (goSplit v ";") [] false
      else .ok (([] : List String), false)) with
  | error e =>
    rw [hp] at h
    cases h
  | ok p =>
    obtain ⟨consumes, allowEmpty⟩ := p
    rw [hp] at h
    dsimp only at h
    split_ifs at h <;> cases h <;> exact ⟨rfl, rfl, rfl, rfl, rfl, rfl, rfl⟩

theorem docFactory_ok {v : String} {f : GoField} {info info' : RestfulFunctionInfo}
    {b : Option BinderSpec} (h : docFactory v f info = .ok (info', b)) :
    info' = { info with doc := (f.tag.lookup "description").getD "" } ∧
    b = some .doc := by
  unfold docFactory at h
  split_ifs at h <;> cases h <;> exact ⟨rfl, rfl⟩

theorem headerFactory_ok {v : String} {f : GoField} {info info' : RestfulFunctionInfo}
    {b : Option BinderSpec} (h : headerFactory v f info = .ok (info', b)) :
    info' = { info with headerParameters := info.headerParameters ++
        [⟨f.name, v, (f.tag.lookup "description").getD "", false⟩] } ∧
    info.headerParameters.any (fun item => item.name == v) = false ∧
    b = some (.header v) := by
  unfold headerFactory at h
  split_ifs at h with h1 h2 <;> cases h
  exact ⟨rfl, by simpa using h2, rfl⟩

theorem httpmethodFactory_ok {v : String} {f : GoField}
    {info info' : RestfulFunctionInfo} {b : Option BinderSpec}
    (h : httpmethodFactory v f info = .ok (info', b)) :
    info' = { info with httpMethod := v } ∧ b = some .httpmethod := by
  unfold httpmethodFactory at h
  split_ifs at h <;> cases h <;> exact ⟨rfl, rfl⟩

theorem httppathFactory_ok {v : String} {f : GoField}
    {info info' : RestfulFunctionInfo} {b : Option BinderSpec}
    (h : httppathFactory v f info = .ok (info', b)) :
    info' = { info with httpPath := v } ∧ b = some .httppath := by
  unfold httppathFactory at h
  split_ifs at h <;> cases h <;> exact ⟨rfl, rfl⟩

theorem httprequestFactory_ok {v : String} {f : GoField}
    {info info' : RestfulFunctionInfo} {b : Option BinderSpec}
    (h : httprequestFactory v f info = .ok (info', b)) :
    info' = info ∧ b = some .httprequest := by
  unfold httprequestFactory at h
  split_ifs at h <;> cases h <;> exact ⟨rfl, rfl⟩

theorem notesFactory_ok {v : String} {f : GoField} {info info' : RestfulFunctionInfo}
    {b : Option BinderSpec} (h : notesFactory v f info = .ok (info', b)) :
    info' = { info with notes := (f.tag.lookup "description").getD "" } ∧
    b = some .notes := by
  unfold notesFactory at h
  split_ifs at h <;> cases h <;> exact ⟨rfl, rfl⟩

theorem pathFactory_ok {v : String} {f : GoField} {info info' : RestfulFunctionInfo}
    {b : Option BinderSpec} (h : pathFactory v f info = .ok (info', b)) :
    info' = { info with pathParameters := info.pathParameters ++
        [⟨f.name, v, (f.tag.lookup "description").getD ""⟩] } ∧
    info.pathParameters.any (fun item => item.name == v) = false ∧
    b = some (.path v) := by
  unfold pathFactory at h
  split_ifs at h with h1 h2 <;> cases h
  exact ⟨rfl, by simpa using h2, rfl⟩

theorem producesFactory_ok {v : String} {f : GoField}
    {info info' : RestfulFunctionInfo} {b : Option BinderSpec}
    (h : producesFactory v f info = .ok (info', b)) :
    info' = { info with produces := info.produces ++ [v] } ∧
    b = some (.produces v) := by
  unfold producesFactory at h
  split_ifs at h <;> cases h <;> exact ⟨rfl, rfl⟩

theorem queryFactory_ok {v : String} {f : GoField} {info info' : RestfulFunctionInfo}
    {b : Option BinderSpec} (h : queryFactory v f info = .ok (info', b)) :
    ∃ primaryName aliasNames,
      (goSplit v ",").map goTrimSpace = primaryName :: aliasNames ∧
      info'.queryParameters = info.queryParameters ++
        [⟨f.name, primaryName, (f.tag.lookup "description").getD "",
          f.typ.kind == GoKind.kSlice⟩] ++
        aliasNames.map (fun n =>
          (⟨f.name, n, "Deprecated; use " ++ goQuote primaryName ++ " instead.",
            f.typ.kind == GoKind.kSlice⟩ : RestfulFunctionQueryParameter)) ∧
      info'.pathParameters = info.pathParameters ∧
      info'.headerParameters = info.headerParameters ∧
      PreservesSlots info info' ∧
      (primaryName :: aliasNames).find?
          (fun n => info.queryParameters.any (fun item => item.name == n)) = none ∧
      b = some (.query (primaryName :: aliasNames) (f.tag.lookup "default")) := by
  unfold queryFactory at h
  by_cases hv : v = ""
  · rw [if_pos hv] at h; cases h
  · rw [if_neg hv] at h
    split at h
    · cases h
    · dsimp only at h
      split at h
      · cases h
      · cases h
        refine ⟨_, _, (by assumption), rfl, rfl, rfl, ⟨rfl, rfl, rfl, rfl⟩,
          (by assumption), rfl⟩


theorem restfulrequestFactory_ok {v : String} {f : GoField}
    {info info' : RestfulFunctionInfo} {b : Option BinderSpec}
    (h : restfulrequestFactory v f info = .ok (info', b)) :
    info' = info ∧ b = some .restfulrequest := by
  unfold restfulrequestFactory at h
  split_ifs at h <;> cases h <;> exact ⟨rfl, rfl⟩

/-! ## Walk-effect combinators -/

theorem walkEffects_refl (info : RestfulFunctionInfo) (Q : Prop) :
    WalkEffects info info ([], [], []) Q :=
  ⟨⟨rfl, rfl, rfl, rfl⟩, (List.append_nil _).symm, (List.append_nil _).symm,
    (List.append_nil _).symm, fun h => h, fun h => h, fun h _ => h⟩

theorem walkEffects_trans {i1 i2 i3 : RestfulFunctionInfo}
    {a b : List String × List String × List String} {P Q : Prop}
    (h1 : WalkEffects i1 i2 a P) (h2 : WalkEffects i2 i3 b Q) :
    WalkEffects i1 i3 (a.1 ++ b.1, a.2.1 ++ b.2.1, a.2.2 ++ b.2.2) (P ∧ Q) := by
  obtain ⟨⟨sa1, sa2, sa3, sa4⟩, p1, q1, hh1, np1, nh1, nq1⟩ := h1
  obtain ⟨⟨sb1, sb2, sb3, sb4⟩, p2, q2, hh2, np2, nh2, nq2⟩ := h2
  refine ⟨⟨sb1.trans sa1, sb2.trans sa2, sb3.trans sa3, sb4.trans sa4⟩, ?_, ?_, ?_,
    fun h => np2 (np1 h), fun h => nh2 (nh1 h), fun h pq => nq2 (nq1 h pq.1) pq.2⟩
  · rw [p2, p1, List.append_assoc]
  · rw [q2, q1, List.append_assoc]
  · rw [hh2, hh1, List.append_assoc]

theorem walkEffects_inputFields {info info2 : RestfulFunctionInfo}
    {names : List String × List String × List String} {Q : Prop}
    (x : List InputField) (h : WalkEffects info info2 names Q) :
    WalkEffects info { info2 with inputFields := x } names Q := by
  obtain ⟨⟨a, b, c, d⟩, p, q, hh, np, nh, nq⟩ := h
  exact ⟨⟨a, b, c, d⟩, p, q, hh, np, nh, nq⟩

theorem walkEffects_unchangedLists {info info2 : RestfulFunctionInfo}
    (hp : info2.pathParameters = info.pathParameters)
    (hq : info2.queryParameters = info.queryParameters)
    (hh : info2.headerParameters = info.headerParameters)
    (hs : PreservesSlots info info2) (Q : Prop) :
    WalkEffects info info2 ([], [], []) Q := by
  have e1 : info2.pathNames = info.pathNames := by
    simp [RestfulFunctionInfo.pathNames, hp]
  have e2 : info2.queryNames = info.queryNames := by
    simp [RestfulFunctionInfo.queryNames, hq]
  have e3 : info2.headerNames = info.headerNames := by
    simp [RestfulFunctionInfo.headerNames, hh]
  exact ⟨hs, by simp [e1], by simp [e2], by simp [e3],
    fun h => e1 ▸ h, fun h => e3 ▸ h, fun h _ => e2 ▸ h⟩

theorem walkEffects_pathAppend {info info2 : RestfulFunctionInfo}
    (fnm v d : String)
    (hnew : info2.pathParameters = info.pathParameters ++ [⟨fnm, v, d⟩])
    (hq : info2.queryParameters = info.queryParameters)
    (hh : info2.headerParameters = info.headerParameters)
    (hs : PreservesSlots info info2)
    (hfresh : info.pathParameters.any (fun item => item.name == v) = false)
    (Q : Prop) :
    WalkEffects info info2 ([v], [], []) Q := by
  have e1 : info2.pathNames = info.pathNames ++ [v] := by
    simp [RestfulFunctionInfo.pathNames, hnew]
  have e2 : info2.queryNames = info.queryNames := by
    simp [RestfulFunctionInfo.queryNames, hq]
  have e3 : info2.headerNames = info.headerNames := by
    simp [RestfulFunctionInfo.headerNames, hh]
  have hnm : v ∉ info.pathNames :=
    any_name_false_not_mem (fun p : RestfulFunctionPathParameter => p.name) hfresh
  refine ⟨hs, e1, by simp [e2], by simp [e3], fun h => ?_, fun h => e3 ▸ h,
    fun h _ => e2 ▸ h⟩
  rw [e1]
  exact List.nodup_append.mpr ⟨h, List.nodup_singleton v,
    by simpa [List.disjoint_right] using hnm⟩

theorem walkEffects_headerAppend {info info2 : RestfulFunctionInfo}
    (fnm v d : String) (am : Bool)
    (hnew : info2.headerParameters = info.headerParameters ++ [⟨fnm, v, d, am⟩])
    (hp : info2.pathParameters = info.pathParameters)
    (hq : info2.queryParameters = info.queryParameters)
    (hs : PreservesSlots info info2)
    (hfresh : info.headerParameters.any (fun item => item.name == v) = false)
    (Q : Prop) :
    WalkEffects info info2 ([], [], [v]) Q := by
  have e1 : info2.pathNames = info.pathNames := by
    simp [RestfulFunctionInfo.pathNames, hp]
  have e2 : info2.queryNames = info.queryNames := by
    simp [RestfulFunctionInfo.queryNames, hq]
  have e3 : info2.headerNames = info.headerNames ++ [v] := by
    simp [RestfulFunctionInfo.headerNames, hnew]
  have hnm : v ∉ info.headerNames :=
    any_name_false_not_mem (fun p : RestfulFunctionHeaderParameter => p.name) hfresh
  refine ⟨hs, by simp [e1], by simp [e2], e3, fun h => e1 ▸ h, fun h => ?_,
    fun h _ => e2 ▸ h⟩
  rw [e3]
  exact List.nodup_append.mpr ⟨h, List.nodup_singleton v,
    by simpa [List.disjoint_right] using hnm⟩

theorem walkEffects_queryAppend {info info2 : RestfulFunctionInfo}
    {primaryName : String} {aliasNames : List String}
    (hnames : info2.queryNames = info.queryNames ++ (primaryName :: aliasNames))
    (hp : info2.pathParameters = info.pathParameters)
    (hh : info2.headerParameters = info.headerParameters)
    (hs : PreservesSlots info info2)
    (hfresh : (primaryName :: aliasNames).find?
      (fun n => info.queryParameters.any (fun item => item.name == n)) = none) :
    WalkEffects info info2 ([], primaryName :: aliasNames, [])
      ((primaryName :: aliasNames).Nodup) := by
  have e1 : info2.pathNames = info.pathNames := by
    simp [RestfulFunctionInfo.pathNames, hp]
  have e3 : info2.headerNames = info.headerNames := by
    simp [RestfulFunctionInfo.headerNames, hh]
  have hdisj : ∀ n ∈ primaryName :: aliasNames, n ∉ info.queryNames := by
    intro n hn
    have := List.find?_eq_none.mp hfresh n hn
    exact any_name_false_not_mem (fun p : RestfulFunctionQueryParameter => p.name)
      (by simpa using this)
  refine ⟨hs, by simp [e1], hnames, by simp [e3], fun h => e1 ▸ h,
    fun h => e3 ▸ h, fun h hnd => ?_⟩
  rw [hnames]
  exact List.nodup_append.mpr ⟨h, hnd,
    by
      rw [List.disjoint_right]
      intro n hn
      exact hdisj n hn⟩

theorem walkEffects_mono_q {info info2 : RestfulFunctionInfo}
    {names : List String × List String × List String} {Q Q' : Prop}
    (h : WalkEffects info info2 names Q) (himp : Q' → Q) :
    WalkEffects info info2 names Q' := by
  obtain ⟨hs, p, q, hh, np, nh, nq⟩ := h
  exact ⟨hs, p, q, hh, np, nh, fun hn hq' => nq hn (himp hq')⟩

/-! ## The walker's effect on the route info -/

/-- Unfolding of `handleField` on a plain (non-anonymous) field. -/
theorem handleField_plain (info : RestfulFunctionInfo) (nm : String)
    (typ : GoType) (tag : List (String × String)) :
    handleField info (.mk nm typ tag false) =
      (if ((tag.lookup "api").getD "") = "" then .ok info
       else if (goSplitN2 ((tag.lookup "api").getD "") ":").1 = "-" then .ok info
       else
         match registeredFunctionMap.lookup
             (goSplitN2 ((tag.lookup "api").getD "") ":").1 with
         | none =>
           .error ("unhandled API tag: " ++
             (goSplitN2 ((tag.lookup "api").getD "") ":").1)
         | some registeredFunction =>
           match registeredFunction (goSplitN2 ((tag.lookup "api").getD "") ":").2
               (.mk nm typ tag false) info with
           | .error e => .error (nm ++ ": " ++ e)
           | .ok (info2, fn) =>
             match fn with
             | some f =>
               .ok { info2 with inputFields := info2.inputFields ++ [⟨nm, f⟩] }
             | none => .ok info2) := by
  rw [handleField.eq_def]
  cases typ <;> rfl

/-- Unfolding of `declaredNames` on a plain (non-anonymous) field. -/
theorem declaredNames_plain (nm : String) (typ : GoType)
    (tag : List (String × String)) :
    declaredNames (.mk nm typ tag false) =
      (if ((tag.lookup "api").getD "") = "" then ([], [], [])
       else if (goSplitN2 ((tag.lookup "api").getD "") ":").1 = "path" then
         ([(goSplitN2 ((tag.lookup "api").getD "") ":").2], [], [])
       else if (goSplitN2 ((tag.lookup "api").getD "") ":").1 = "query" then
         ([], (goSplit (goSplitN2 ((tag.lookup "api").getD "") ":").2 ",").map
           goTrimSpace, [])
       else if (goSplitN2 ((tag.lookup "api").getD "") ":").1 = "header" then
         ([], [], [(goSplitN2 ((tag.lookup "api").getD "") ":").2])
       else ([], [], [])) := by
  rw [declaredNames.eq_def]
  cases typ <;> rfl

/-- Unfolding of `queryTagNodup` on a plain (non-anonymous) field. -/
theorem queryTagNodup_plain (nm : String) (typ : GoType)
    (tag : List (String × String)) :
    queryTagNodup (.mk nm typ tag false) =
      (if (goSplitN2 ((tag.lookup "api").getD "") ":").1 = "query" then
         (((goSplit (goSplitN2 ((tag.lookup "api").getD "") ":").2 ",").map
           goTrimSpace).Nodup : Prop)
       else True) := by
  rw [queryTagNodup.eq_def]
  cases typ <;> rfl

/-- Effect of a successful `handleField` on a plain (non-anonymous) field:
this case of the walker does not recurse, so it is proved standalone. -/
theorem handleField_plain_effects : ∀ (nm : String) (typ : GoType)
    (tag : List (String × String)) (info info' : RestfulFunctionInfo),
    handleField info (.mk nm typ tag false) = .ok info' →
    WalkEffects info info' (declaredNames (.mk nm typ tag false))
      (queryTagNodup (.mk nm typ tag false))
  | nm, typ, tag, info, info', h => by
    rw [handleField_plain] at h
    by_cases h1 : ((tag.lookup "api").getD "") = ""
    · rw [if_pos h1] at h
      cases h
      have hd : declaredNames (.mk nm typ tag false) = ([], [], []) := by
        rw [declaredNames_plain, if_pos h1]
      rw [hd]
      exact walkEffects_refl info _
    · rw [if_neg h1] at h
      by_cases h2 : (goSplitN2 ((tag.lookup "api").getD "") ":").1 = "-"
      · rw [if_pos h2] at h
        cases h
        have hd : declaredNames (.mk nm typ tag false) = ([], [], []) := by
          rw [declaredNames_plain, if_neg h1]
          simp [h2]
        rw [hd]
        exact walkEffects_refl info _
      · rw [if_neg h2] at h
        split at h
        · cases h
        · next F heqF =>
          split at h
          · cases h
          · next info2 fn heqCall =>
            have main : WalkEffects info info2
                (declaredNames (.mk nm typ tag false))
                (queryTagNodup (.mk nm typ tag false)) := by
              have hmem := lookup_mem heqF
              simp only [registeredFunctionMap, List.mem_cons, List.not_mem_nil,
                or_false, Prod.mk.injEq] at hmem
              rcases hmem with ⟨hk, hF⟩ | ⟨hk, hF⟩ | ⟨hk, hF⟩ | ⟨hk, hF⟩ |
                ⟨hk, hF⟩ | ⟨hk, hF⟩ | ⟨hk, hF⟩ | ⟨hk, hF⟩ | ⟨hk, hF⟩ |
                ⟨hk, hF⟩ | ⟨hk, hF⟩ <;> subst hF
              · obtain ⟨hp, hq, hh, hs⟩ := bodyFactory_ok heqCall
                have hd : declaredNames (.mk nm typ tag false) = ([], [], []) := by
                  rw [declaredNames_plain, if_neg h1]
                  simp [hk]
                rw [hd]
                exact walkEffects_unchangedLists hp hq hh hs _
              · obtain ⟨hinfo2, hfn⟩ := docFactory_ok heqCall
                subst hinfo2
                have hd : declaredNames (.mk nm typ tag false) = ([], [], []) := by
                  rw [declaredNames_plain, if_neg h1]
                  simp [hk]
                rw [hd]
                exact walkEffects_unchangedLists rfl rfl rfl ⟨rfl, rfl, rfl, rfl⟩ _
              · obtain ⟨hinfo2, hfresh, hfn⟩ := headerFactory_ok heqCall
                subst hinfo2
                have hd : declaredNames (.mk nm typ tag false) =
                    ([], [], [(goSplitN2 ((tag.lookup "api").getD "") ":").2]) := by
                  rw [declaredNames_plain, if_neg h1]
                  simp [hk]
                rw [hd]
                refine walkEffects_headerAppend
                  ((GoField.mk nm typ tag false).name)
                  ((goSplitN2 ((tag.lookup "api").getD "") ":").2)
                  (((GoField.mk nm typ tag false).tag.lookup "description").getD "")
                  false ?_ ?_ ?_ ?_ hfresh _
                · rfl
                · rfl
                · rfl
                · exact ⟨rfl, rfl, rfl, rfl⟩
              · obtain ⟨hinfo2, hfn⟩ := httpmethodFactory_ok heqCall
                subst hinfo2
                have hd : declaredNames (.mk nm typ tag false) = ([], [], []) := by
                  rw [declaredNames_plain, if_neg h1]
                  simp [hk]
                rw [hd]
                exact walkEffects_unchangedLists rfl rfl rfl ⟨rfl, rfl, rfl, rfl⟩ _
              · obtain ⟨hinfo2, hfn⟩ := httppathFactory_ok heqCall
                subst hinfo2
                have hd : declaredNames (.mk nm typ tag false) = ([], [], []) := by
                  rw [declaredNames_plain, if_neg h1]
                  simp [hk]
                rw [hd]
                exact walkEffects_unchangedLists rfl rfl rfl ⟨rfl, rfl, rfl, rfl⟩ _
              · obtain ⟨hinfo2, hfn⟩ := httprequestFactory_ok heqCall
                subst hinfo2
                have hd : declaredNames (.mk nm typ tag false) = ([], [], []) := by
                  rw [declaredNames_plain, if_neg h1]
                  simp [hk]
                rw [hd]
                exact walkEffects_unchangedLists rfl rfl rfl ⟨rfl, rfl, rfl, rfl⟩ _
              · obtain ⟨hinfo2, hfn⟩ := notesFactory_ok heqCall
                subst hinfo2
                have hd : declaredNames (.mk nm typ tag false) = ([], [], []) := by
                  rw [declaredNames_plain, if_neg h1]
                  simp [hk]
                rw [hd]
                exact walkEffects_unchangedLists rfl rfl rfl ⟨rfl, rfl, rfl, rfl⟩ _
              · obtain ⟨hinfo2, hfresh, hfn⟩ := pathFactory_ok heqCall
                subst hinfo2
                have hd : declaredNames (.mk nm typ tag false) =
                    ([(goSplitN2 ((tag.lookup "api").getD "") ":").2], [], []) := by
                  rw [declaredNames_plain, if_neg h1]
                  simp [hk]
                rw [hd]
                refine walkEffects_pathAppend
                  ((GoField.mk nm typ tag false).name)
                  ((goSplitN2 ((tag.lookup "api").getD "") ":").2)
                  (((GoField.mk nm typ tag false).tag.lookup "description").getD "")
                  ?_ ?_ ?_ ?_ hfresh _
                · rfl
                · rfl
                · rfl
                · exact ⟨rfl, rfl, rfl, rfl⟩
              · obtain ⟨hinfo2, hfn⟩ := producesFactory_ok heqCall
                subst hinfo2
                have hd : declaredNames (.mk nm typ tag false) = ([], [], []) := by
                  rw [declaredNames_plain, if_neg h1]
                  simp [hk]
                rw [hd]
                exact walkEffects_unchangedLists rfl rfl rfl ⟨rfl, rfl, rfl, rfl⟩ _
              · obtain ⟨primaryName, aliasNames, hsp, hqp, hpp, hhp, hs, hfresh,
                  hfn⟩ := queryFactory_ok heqCall
                have hd : declaredNames (.mk nm typ tag false) =
                    ([], primaryName :: aliasNames, []) := by
                  rw [declaredNames_plain, if_neg h1]
                  simp [hk, hsp]
                rw [hd]
                have hnames : info2.queryNames =
                    info.queryNames ++ (primaryName :: aliasNames) := by
                  simp only [RestfulFunctionInfo.queryNames, hqp, List.map_append,
                    List.map_map, Function.comp_def]
                  simp
                have hmain := walkEffects_queryAppend hnames hpp hhp hs hfresh
                exact walkEffects_mono_q hmain (by
                  intro hq'
                  rw [queryTagNodup_plain, if_pos hk, hsp] at hq'
                  exact hq')
              · obtain ⟨hinfo2, hfn⟩ := restfulrequestFactory_ok heqCall
                subst hinfo2
                have hd : declaredNames (.mk nm typ tag false) = ([], [], []) := by
                  rw [declaredNames_plain, if_neg h1]
                  simp [hk]
                rw [hd]
                exact walkEffects_unchangedLists rfl rfl rfl ⟨rfl, rfl, rfl, rfl⟩ _
            cases fn with
            | some fb =>
              dsimp only at h
              cases h
              exact walkEffects_inputFields _ main
            | none =>
              dsimp only at h
              cases h
              exact main

/-- Strong-induction core of the walker-effects theorems: both statements at
once, with an explicit size bound playing the role of the recursion measure. -/
theorem walkEffects_aux (n : Nat) :
    (∀ (f : GoField) (info info' : RestfulFunctionInfo), sizeOf f ≤ n →
      handleField info f = .ok info' →
      WalkEffects info info' (declaredNames f) (queryTagNodup f)) ∧
    (∀ (fs : List GoField) (info info' : RestfulFunctionInfo), sizeOf fs ≤ n →
      handleFieldList info fs = .ok info' →
      WalkEffects info info' (declaredNamesList fs) (queryTagNodupList fs)) := by
  induction n with
  | zero =>
    constructor
    · intro f info info' hle h
      exfalso
      cases f with
      | mk nm t tg a =>
        simp only [GoField.mk.sizeOf_spec] at hle
        omega
    · intro fs info info' hle h
      exfalso
      cases fs with
      | nil =>
        simp only [List.nil.sizeOf_spec] at hle
        omega
      | cons a l =>
        simp only [List.cons.sizeOf_spec] at hle
        omega
  | succ n ih =>
    obtain ⟨ihF, ihL⟩ := ih
    constructor
    · intro f info info' hle h
      cases f with
      | mk nm typ tag anon =>
        cases anon with
        | false => exact handleField_plain_effects nm typ tag info info' h
        | true =>
          cases typ
          case strct s ic ie fields =>
            rw [handleField_anonymous_struct] at h
            have hb : sizeOf fields ≤ n := by
              simp only [GoField.mk.sizeOf_spec, GoType.strct.sizeOf_spec] at hle
              omega
            have hrec := ihL fields info info' hb h
            simpa [declaredNames, queryTagNodup] using hrec
          all_goals simp [handleField] at h
    · intro fs info info' hle h
      cases fs with
      | nil =>
        rw [handleFieldList_nil] at h
        cases h
        have hd : declaredNamesList ([] : List GoField) = ([], [], []) := by
          simp [declaredNamesList]
        rw [hd]
        exact walkEffects_refl info _
      | cons f rest =>
        rw [handleFieldList_cons] at h
        have hbf : sizeOf f ≤ n := by
          simp only [List.cons.sizeOf_spec] at hle
          omega
        have hbr : sizeOf rest ≤ n := by
          simp only [List.cons.sizeOf_spec] at hle
          omega
        cases hmid : handleField info f with
        | error e => rw [hmid] at h; cases h
        | ok mid =>
          rw [hmid] at h
          dsimp only at h
          have hf := ihF f info mid hbf hmid
          have hrest := ihL rest mid info' hbr h
          have hcomb := walkEffects_trans hf hrest
          have hd : declaredNamesList (f :: rest) =
              ((declaredNames f).1 ++ (declaredNamesList rest).1,
               (declaredNames f).2.1 ++ (declaredNamesList rest).2.1,
               (declaredNames f).2.2 ++ (declaredNamesList rest).2.2) := by
            simp [declaredNamesList]
          rw [hd]
          have hq : queryTagNodupList (f :: rest) =
              (queryTagNodup f ∧ queryTagNodupList rest) := by
            simp [queryTagNodupList]
          rw [hq]
          exact hcomb

/-- A successful `handleField` appends exactly the field's declared external
names to the parameter sequences, preserves the slot positions, and
preserves uniqueness of the registered names (for query names: provided the
field's own comma-separated lists are repetition-free). -/
theorem handleField_effects (f : GoField) (info info' : RestfulFunctionInfo)
    (h : handleField info f = .ok info') :
    WalkEffects info info' (declaredNames f) (queryTagNodup f) :=
  (walkEffects_aux (sizeOf f)).1 f info info' le_rfl h

/-- `handleField_effects` lifted over a field list. -/
theorem handleFieldList_effects (fs : List GoField)
    (info info' : RestfulFunctionInfo)
    (h : handleFieldList info fs = .ok info') :
    WalkEffects info info' (declaredNamesList fs) (queryTagNodupList fs) :=
  (walkEffects_aux (sizeOf fs)).2 fs info info' le_rfl h

theorem exists_ok_of_isOk {α β : Type} (x : Except α β) (h : x.isOk = true) :
    ∃ b, x = .ok b := by
  cases x with
  | error e => simp [Except.isOk, Except.toBool] at h
  | ok b => exact ⟨b, rfl⟩

/-- C8: a metadata record walked successfully from a fresh route info
registers repetition-free path and header name sequences; the query name
sequence is repetition-free provided no single query directive's own
comma-separated name list repeats a name.  (Amended: the build rejects a
name already registered by an *earlier* directive, but it does not reject a
repetition inside one directive's own alias list — see the
counterexample.) -/
theorem walk_success_names_unique_modulo_intra_query_aliases
    (fs : List GoField) (info info' : RestfulFunctionInfo)
    (hp : info.pathParameters = []) (hq : info.queryParameters = [])
    (hh : info.headerParameters = [])
    (h : handleFieldList info fs = .ok info') :
    info'.pathNames.Nodup ∧ info'.headerNames.Nodup ∧
      (queryTagNodupList fs → info'.queryNames.Nodup) := by
  obtain ⟨_, _, _, _, hpnd, hhnd, hqnd⟩ := handleFieldList_effects fs info info' h
  refine ⟨hpnd ?_, hhnd ?_, fun hq' => hqnd ?_ hq'⟩
  · simp [RestfulFunctionInfo.pathNames, hp]
  · simp [RestfulFunctionInfo.headerNames, hh]
  · simp [RestfulFunctionInfo.queryNames, hq]

/-- Witness for C8: a record with one path, one header and one two-name
query directive walks successfully and registers pairwise-distinct names in
every sequence. -/
theorem walk_success_names_unique_modulo_intra_query_aliases_witness :
    ∃ info',
      handleFieldList {}
          [.mk "ID" .int [("api", "path:id")] false,
           .mk "H" .str [("api", "header:x-h")] false,
           .mk "Q" .str [("api", "query:a,b")] false] = .ok info' ∧
      info'.pathNames.Nodup ∧ info'.headerNames.Nodup ∧
      info'.queryNames.Nodup := by
  obtain ⟨info', heq⟩ := exists_ok_of_isOk
    (handleFieldList {}
      [.mk "ID" .int [("api", "path:id")] false,
       .mk "H" .str [("api", "header:x-h")] false,
       .mk "Q" .str [("api", "query:a,b")] false]) rfl
  obtain ⟨h1, h2, h3⟩ := walk_success_names_unique_modulo_intra_query_aliases
    [.mk "ID" .int [("api", "path:id")] false,
     .mk "H" .str [("api", "header:x-h")] false,
     .mk "Q" .str [("api", "query:a,b")] false] {} info' rfl rfl rfl heq
  refine ⟨info', heq, h1, h2, h3 ?_⟩
  refine ⟨?_, ?_, ?_, trivial⟩
  · rw [queryTagNodup_plain, if_neg (by decide)]
    trivial
  · rw [queryTagNodup_plain, if_neg (by decide)]
    trivial
  · rw [queryTagNodup_plain, if_pos (by decide)]
    decide

/-- Counterexample for C8 as frozen: the single directive `query:a,a`
registers the external name `a` twice without any build-time failure — the
duplicate check only scans parameters registered before this directive. -/
theorem query_alias_duplicate_registered_without_failure :
    (handleFieldList {} [.mk "V" .str [("api", "query:a,a")] false]).map
        RestfulFunctionInfo.queryNames = .ok ["a", "a"] := rfl

/-! ## Slot classification (`ParseRestfulFunction`'s argument loops) -/

theorem findIdxN_get? (p : GoType → Bool) :
    ∀ (l : List GoType) (j : Nat), findIdxN p l = some j →
      l.get? j = l.find? p
  | [], j, h => by simp [findIdxN] at h
  | t :: rest, j, h => by
    by_cases hp : p t
    · simp only [findIdxN, if_pos hp, Option.some.injEq] at h
      subst h
      simp [List.find?_cons_of_pos _ hp]
    · simp only [findIdxN, if_neg hp] at h
      cases hfd : findIdxN p rest with
      | none => rw [hfd] at h; simp at h
      | some j' =>
        rw [hfd] at h
        simp only [Option.map_some', Option.some.injEq] at h
        subst h
        simpa [List.find?_cons_of_neg _ hp] using findIdxN_get? p rest j' hfd

theorem findIdxN_none_iff (p : GoType → Bool) :
    ∀ l : List GoType, findIdxN p l = none ↔ (l.filter p).length = 0
  | [] => by simp [findIdxN]
  | t :: rest => by
    by_cases hp : p t
    · simp [findIdxN, hp, List.filter_cons]
    · simp [findIdxN, hp, List.filter_cons, findIdxN_none_iff p rest]

theorem find?_none_iff (p : GoType → Bool) :
    ∀ l : List GoType, l.find? p = none ↔ (l.filter p).length = 0
  | [] => by simp
  | t :: rest => by
    by_cases hp : p t
    · simp [List.find?_cons_of_pos _ hp, List.filter_cons, hp]
    · simp [List.find?_cons_of_neg _ hp, List.filter_cons, hp,
        find?_none_iff p rest]

theorem posFrom_eq_idxOrNeg (b : Int) (hb : b = -1) (p : GoType → Bool)
    (l : List GoType) : posFrom b 0 (findIdxN p l) = idxOrNeg p l := by
  subst hb
  cases h : findIdxN p l <;> simp [posFrom, idxOrNeg, h]

theorem optOr_eq (o : Option GoType) (b : Option GoType) (hb : b = none) :
    optOr o b = o := by
  subst hb
  cases o <;> simp [optOr]

/-- `classifyInputs` succeeds when at most one parameter of each class
remains to be seen (and a class with a remaining parameter has not been
assigned yet), recording the global index of each class's first hit. -/
theorem classifyInputs_ok (ins : List GoType) :
    ∀ (info : RestfulFunctionInfo) (i : Nat),
      countContextParams ins ≤ 1 →
      (countContextParams ins = 1 → info.inContextPosition = -1) →
      countMetadataParams ins ≤ 1 →
      (countMetadataParams ins = 1 → info.inMetadataPosition = -1) →
      classifyInputs info i ins = .ok
        { info with
          inContextPosition := posFrom info.inContextPosition i
            (findIdxN (fun t => t.implementsContext) ins)
          inMetadataPosition := posFrom info.inMetadataPosition i
            (findIdxN (fun t => !t.implementsContext) ins)
          inMetadataType := optOr (ins.find? (fun t => !t.implementsContext))
            info.inMetadataType } := by
  induction ins with
  | nil =>
    intro info i _ _ _ _
    simp [classifyInputs, findIdxN, posFrom, optOr]
  | cons t rest ih =>
    intro info i h1 h2 h3 h4
    by_cases hc : t.implementsContext = true
    · have hcc : countContextParams (t :: rest) = countContextParams rest + 1 := by
        simp [countContextParams, List.filter_cons, hc]
      have hcm : countMetadataParams (t :: rest) = countMetadataParams rest := by
        simp [countMetadataParams, List.filter_cons, hc]
      have hrest0 : countContextParams rest = 0 := by omega
      have hpos : info.inContextPosition = -1 := h2 (by omega)
      have hnone : findIdxN (fun t => t.implementsContext) rest = none := by
        rw [findIdxN_none_iff]
        exact hrest0
      have key := ih { info with inContextPosition := (i : Int) } (i + 1)
        (by omega) (fun h => absurd h (by omega)) (by omega)
        (fun h => h4 (by omega))
      simp only [classifyInputs]
      rw [if_pos hc, if_neg (by rw [hpos]; decide), key]
      congr 1
      rw [show findIdxN (fun t => t.implementsContext) (t :: rest) = some 0 by
        simp [findIdxN, hc]]
      rw [show findIdxN (fun t => !t.implementsContext) (t :: rest) =
          (findIdxN (fun t => !t.implementsContext) rest).map (· + 1) by
        simp [findIdxN, hc]]
      rw [List.find?_cons_of_neg _ (by simp [hc]), hnone]
      cases hfd : findIdxN (fun t => !t.implementsContext) rest with
      | none => simp [posFrom]
      | some j =>
        simp only [Option.map_some', posFrom]
        have : ((i + 1 + j : Nat) : Int) = ((i + (j + 1) : Nat) : Int) := by
          omega
        rw [this]
        simp
    · have hcc : countContextParams (t :: rest) = countContextParams rest := by
        simp [countContextParams, List.filter_cons, hc]
      have hcm : countMetadataParams (t :: rest) = countMetadataParams rest + 1 := by
        simp [countMetadataParams, List.filter_cons, hc]
      have hrest0 : countMetadataParams rest = 0 := by omega
      have hpos : info.inMetadataPosition = -1 := h4 (by omega)
      have hnone : findIdxN (fun t => !t.implementsContext) rest = none := by
        rw [findIdxN_none_iff]
        exact hrest0
      have hfnone : rest.find? (fun t => !t.implementsContext) = none := by
        rw [find?_none_iff]
        exact hrest0
      have key := ih
        { info with inMetadataPosition := (i : Int), inMetadataType := some t }
        (i + 1) (by omega) (fun h => h2 (by omega)) (by omega)
        (fun h => absurd h (by omega))
      simp only [classifyInputs]
      rw [if_neg (by simp [hc]), if_neg (by rw [hpos]; decide), key]
      congr 1
      rw [show findIdxN (fun t => !t.implementsContext) (t :: rest) = some 0 by
        simp [findIdxN, hc]]
      rw [show findIdxN (fun t => t.implementsContext) (t :: rest) =
          (findIdxN (fun t => t.implementsContext) rest).map (· + 1) by
        simp [findIdxN, hc]]
      rw [List.find?_cons_of_pos _ (by simp [hc]), hnone, hfnone]
      cases hfd : findIdxN (fun t => t.implementsContext) rest with
      | none => simp [posFrom, optOr]
      | some j =>
        simp only [Option.map_some', posFrom, optOr]
        have : ((i + 1 + j : Nat) : Int) = ((i + (j + 1) : Nat) : Int) := by
          omega
        rw [this]
        simp

/-- `classifyOutputs` analogue of `classifyInputs_ok`. -/
theorem classifyOutputs_ok (outs : List GoType) :
    ∀ (info : RestfulFunctionInfo) (i : Nat),
      countErrorResults outs ≤ 1 →
      (countErrorResults outs = 1 → info.outErrorPosition = -1) →
      countResponseResults outs ≤ 1 →
      (countResponseResults outs = 1 → info.outResponsePosition = -1) →
      classifyOutputs info i outs = .ok
        { info with
          outErrorPosition := posFrom info.outErrorPosition i
            (findIdxN (fun t => t.implementsError) outs)
          outResponsePosition := posFrom info.outResponsePosition i
            (findIdxN (fun t => !t.implementsError) outs) } := by
  induction outs with
  | nil =>
    intro info i _ _ _ _
    simp [classifyOutputs, findIdxN, posFrom]
  | cons t rest ih =>
    intro info i h1 h2 h3 h4
    by_cases hc : t.implementsError = true
    · have hcc : countErrorResults (t :: rest) = countErrorResults rest + 1 := by
        simp [countErrorResults, List.filter_cons, hc]
      have hcm : countResponseResults (t :: rest) = countResponseResults rest := by
        simp [countResponseResults, List.filter_cons, hc]
      have hrest0 : countErrorResults rest = 0 := by omega
      have hpos : info.outErrorPosition = -1 := h2 (by omega)
      have hnone : findIdxN (fun t => t.implementsError) rest = none := by
        rw [findIdxN_none_iff]
        exact hrest0
      have key := ih { info with outErrorPosition := (i : Int) } (i + 1)
        (by omega) (fun h => absurd h (by omega)) (by omega)
        (fun h => h4 (by omega))
      simp only [classifyOutputs]
      rw [if_pos hc, if_neg (by rw [hpos]; decide), key]
      congr 1
      rw [show findIdxN (fun t => t.implementsError) (t :: rest) = some 0 by
        simp [findIdxN, hc]]
      rw [show findIdxN (fun t => !t.implementsError) (t :: rest) =
          (findIdxN (fun t => !t.implementsError) rest).map (· + 1) by
        simp [findIdxN, hc]]
      rw [hnone]
      cases hfd : findIdxN (fun t => !t.implementsError) rest with
      | none => simp [posFrom]
      | some j =>
        simp only [Option.map_some', posFrom]
        have : ((i + 1 + j : Nat) : Int) = ((i + (j + 1) : Nat) : Int) := by
          omega
        rw [this]
        simp
    · have hcc : countErrorResults (t :: rest) = countErrorResults rest := by
        simp [countErrorResults, List.filter_cons, hc]
      have hcm : countResponseResults (t :: rest) = countResponseResults rest + 1 := by
        simp [countResponseResults, List.filter_cons, hc]
      have hrest0 : countResponseResults rest = 0 := by omega
      have hpos : info.outResponsePosition = -1 := h4 (by omega)
      have hnone : findIdxN (fun t => !t.implementsError) rest = none := by
        rw [findIdxN_none_iff]
        exact hrest0
      have key := ih { info with outResponsePosition := (i : Int) } (i + 1)
        (by omega) (fun h => h2 (by omega)) (by omega)
        (fun h => absurd h (by omega))
      simp only [classifyOutputs]
      rw [if_neg (by simp [hc]), if_neg (by rw [hpos]; decide), key]
      congr 1
      rw [show findIdxN (fun t => !t.implementsError) (t :: rest) = some 0 by
        simp [findIdxN, hc]]
      rw [show findIdxN (fun t => t.implementsError) (t :: rest) =
          (findIdxN (fun t => t.implementsError) rest).map (· + 1) by
        simp [findIdxN, hc]]
      rw [hnone]
      cases hfd : findIdxN (fun t => t.implementsError) rest with
      | none => simp [posFrom]
      | some j =>
        simp only [Option.map_some', posFrom]
        have : ((i + 1 + j : Nat) : Int) = ((i + (j + 1) : Nat) : Int) := by
          omega
        rw [this]
        simp

/-- `classifyInputs` fails whenever a class is bound to be assigned twice:
two remaining parameters of one class, or one remaining while the class's
slot is already taken. -/
theorem classifyInputs_err (ins : List GoType) :
    ∀ (info : RestfulFunctionInfo) (i : Nat),
      (2 ≤ countContextParams ins ∨ 2 ≤ countMetadataParams ins ∨
       (1 ≤ countContextParams ins ∧ 0 ≤ info.inContextPosition) ∨
       (1 ≤ countMetadataParams ins ∧ 0 ≤ info.inMetadataPosition)) →
      ∃ e, classifyInputs info i ins = .error e := by
  induction ins with
  | nil =>
    intro info i h
    exfalso
    have hc : countContextParams ([] : List GoType) = 0 := rfl
    have hm : countMetadataParams ([] : List GoType) = 0 := rfl
    rcases h with h | h | ⟨h, _⟩ | ⟨h, _⟩ <;> omega
  | cons t rest ih =>
    intro info i h
    by_cases hc : t.implementsContext = true
    · have hcc : countContextParams (t :: rest) = countContextParams rest + 1 := by
        simp [countContextParams, List.filter_cons, hc]
      have hcm : countMetadataParams (t :: rest) = countMetadataParams rest := by
        simp [countMetadataParams, List.filter_cons, hc]
      by_cases hpos : info.inContextPosition ≥ 0
      · refine ⟨"multiple context.Context arguments", ?_⟩
        simp only [classifyInputs]
        rw [if_pos hc, if_pos hpos]
      · simp only [classifyInputs]
        rw [if_pos hc, if_neg hpos]
        refine ih _ (i + 1) ?_
        rcases h with h | h | ⟨h, hp⟩ | ⟨h, hp⟩
        · exact Or.inr (Or.inr (Or.inl ⟨by omega, by
            show (0 : Int) ≤ (i : Nat)
            exact_mod_cast Nat.zero_le i⟩))
        · exact Or.inr (Or.inl (by omega))
        · exact absurd hp hpos
        · exact Or.inr (Or.inr (Or.inr ⟨by omega, hp⟩))
    · have hcc : countContextParams (t :: rest) = countContextParams rest := by
        simp [countContextParams, List.filter_cons, hc]
      have hcm : countMetadataParams (t :: rest) = countMetadataParams rest + 1 := by
        simp [countMetadataParams, List.filter_cons, hc]
      by_cases hpos : info.inMetadataPosition ≥ 0
      · refine ⟨"multiple input arguments", ?_⟩
        simp only [classifyInputs]
        rw [if_neg (by simp [hc]), if_pos hpos]
      · simp only [classifyInputs]
        rw [if_neg (by simp [hc]), if_neg hpos]
        refine ih _ (i + 1) ?_
        rcases h with h | h | ⟨h, hp⟩ | ⟨h, hp⟩
        · exact Or.inl (by omega)
        · exact Or.inr (Or.inr (Or.inr ⟨by omega, by
            show (0 : Int) ≤ (i : Nat)
            exact_mod_cast Nat.zero_le i⟩))
        · exact Or.inr (Or.inr (Or.inl ⟨by omega, hp⟩))
        · exact absurd hp hpos

/-- `classifyOutputs` analogue of `classifyInputs_err`. -/
theorem classifyOutputs_err (outs : List GoType) :
    ∀ (info : RestfulFunctionInfo) (i : Nat),
      (2 ≤ countErrorResults outs ∨ 2 ≤ countResponseResults outs ∨
       (1 ≤ countErrorResults outs ∧ 0 ≤ info.outErrorPosition) ∨
       (1 ≤ countResponseResults outs ∧ 0 ≤ info.outResponsePosition)) →
      ∃ e, classifyOutputs info i outs = .error e := by
  induction outs with
  | nil =>
    intro info i h
    exfalso
    have hc : countErrorResults ([] : List GoType) = 0 := rfl
    have hm : countResponseResults ([] : List GoType) = 0 := rfl
    rcases h with h | h | ⟨h, _⟩ | ⟨h, _⟩ <;> omega
  | cons t rest ih =>
    intro info i h
    by_cases hc : t.implementsError = true
    · have hcc : countErrorResults (t :: rest) = countErrorResults rest + 1 := by
        simp [countErrorResults, List.filter_cons, hc]
      have hcm : countResponseResults (t :: rest) = countResponseResults rest := by
        simp [countResponseResults, List.filter_cons, hc]
      by_cases hpos : info.outErrorPosition ≥ 0
      · refine ⟨"multiple error arguments", ?_⟩
        simp only [classifyOutputs]
        rw [if_pos hc, if_pos hpos]
      · simp only [classifyOutputs]
        rw [if_pos hc, if_neg hpos]
        refine ih _ (i + 1) ?_
        rcases h with h | h | ⟨h, hp⟩ | ⟨h, hp⟩
        · exact Or.inr (Or.inr (Or.inl ⟨by omega, by
            show (0 : Int) ≤ (i : Nat)
            exact_mod_cast Nat.zero_le i⟩))
        · exact Or.inr (Or.inl (by omega))
        · exact absurd hp hpos
        · exact Or.inr (Or.inr (Or.inr ⟨by omega, hp⟩))
    · have hcc : countErrorResults (t :: rest) = countErrorResults rest := by
        simp [countErrorResults, List.filter_cons, hc]
      have hcm : countResponseResults (t :: rest) = countResponseResults rest + 1 := by
        simp [countResponseResults, List.filter_cons, hc]
      by_cases hpos : info.outResponsePosition ≥ 0
      · refine ⟨"multiple output arguments", ?_⟩
        simp only [classifyOutputs]
        rw [if_neg (by simp [hc]), if_pos hpos]
      · simp only [classifyOutputs]
        rw [if_neg (by simp [hc]), if_neg hpos]
        refine ih _ (i + 1) ?_
        rcases h with h | h | ⟨h, hp⟩ | ⟨h, hp⟩
        · exact Or.inl (by omega)
        · exact Or.inr (Or.inr (Or.inr ⟨by omega, by
            show (0 : Int) ≤ (i : Nat)
            exact_mod_cast Nat.zero_le i⟩))
        · exact Or.inr (Or.inr (Or.inl ⟨by omega, hp⟩))
        · exact absurd hp hpos

/-- The metadata-field loop preserves the classification slots. -/
theorem parseMetadataFields_slots :
    ∀ (fs : List GoField) (info info' : RestfulFunctionInfo),
      parseMetadataFields info fs = .ok info' → PreservesSlots info info'
  | [], info, info', h => by
    simp only [parseMetadataFields] at h
    cases h
    exact ⟨rfl, rfl, rfl, rfl⟩
  | f :: rest, info, info', h => by
    simp only [parseMetadataFields] at h
    cases hmid : handleField info f with
    | error e => rw [hmid] at h; cases h
    | ok mid =>
      rw [hmid] at h
      dsimp only at h
      obtain ⟨e1, e2, e3, e4⟩ := (handleField_effects f info mid hmid).1
      obtain ⟨e5, e6, e7, e8⟩ := parseMetadataFields_slots rest mid info' h
      exact ⟨e5.trans e1, e6.trans e2, e7.trans e3, e8.trans e4⟩

theorem findIdxN_some_of_find?_some (p : GoType → Bool) (l : List GoType)
    (t : GoType) (h : l.find? p = some t) :
    ∃ j, findIdxN p l = some j := by
  cases hfd : findIdxN p l with
  | some j => exact ⟨j, rfl⟩
  | none =>
    have h0 := (findIdxN_none_iff p l).mp hfd
    rw [(find?_none_iff p l).mpr h0] at h
    cases h

/-- With at most one slot candidate of each class, `ParseRestfulFunction`
reduces to the metadata walk from `preWalkInfo` (or to the non-struct
failure / immediate success when the metadata parameter is not a struct /
absent). -/
theorem ParseRestfulFunction_func_char (ins outs : List GoType)
    (hc : countContextParams ins ≤ 1) (hm : countMetadataParams ins ≤ 1)
    (he : countErrorResults outs ≤ 1) (hr : countResponseResults outs ≤ 1) :
    ParseRestfulFunction (.func ins outs) =
      match ins.find? (fun t => !t.implementsContext) with
      | none => .ok (preWalkInfo ins outs)
      | some t =>
        match derefOnce t with
        | .strct _ _ _ fields => parseMetadataFields (preWalkInfo ins outs) fields
        | other => .error ("unexpected input type: " ++ other.kind.goString) := by
  have hins := classifyInputs_ok ins {} 0 hc (fun _ => rfl) hm (fun _ => rfl)
  simp only [ParseRestfulFunction]
  rw [hins]
  dsimp only
  rw [classifyOutputs_ok outs _ 0 he (fun _ => rfl) hr (fun _ => rfl)]
  dsimp only
  rw [posFrom_eq_idxOrNeg _ rfl, posFrom_eq_idxOrNeg _ rfl,
    posFrom_eq_idxOrNeg _ rfl, posFrom_eq_idxOrNeg _ rfl, optOr_eq _ _ rfl]
  have hpre : preWalkInfo ins outs =
      { inContextPosition := idxOrNeg (fun t => t.implementsContext) ins
        inMetadataPosition := idxOrNeg (fun t => !t.implementsContext) ins
        inMetadataType := ins.find? (fun t => !t.implementsContext)
        outErrorPosition := idxOrNeg (fun t => t.implementsError) outs
        outResponsePosition := idxOrNeg (fun t => !t.implementsError) outs
        responseExample :=
          if idxOrNeg (fun t => !t.implementsError) outs ≥ 0 then
            (outs.get? (idxOrNeg (fun t => !t.implementsError) outs).toNat).map .ptr
          else none } := rfl
  rw [hpre]
  by_cases hresp : idxOrNeg (fun t => !t.implementsError) outs ≥ 0
  · rw [if_pos hresp, if_pos hresp]
    dsimp only
    by_cases hmeta : idxOrNeg (fun t => !t.implementsContext) ins ≥ 0
    · rw [if_pos hmeta]
      cases hfd : findIdxN (fun t => !t.implementsContext) ins with
      | none => rw [idxOrNeg, hfd] at hmeta; exact absurd hmeta (by decide)
      | some j =>
        have hget : ins.get? j = ins.find? (fun t => !t.implementsContext) :=
          findIdxN_get? _ ins j hfd
        rw [show (idxOrNeg (fun t => !t.implementsContext) ins).toNat = j by
          rw [idxOrNeg, hfd]; exact Int.toNat_natCast j]
        rw [hget]
        cases hfind : ins.find? (fun t => !t.implementsContext) with
        | none =>
          exfalso
          have h0 := (find?_none_iff _ ins).mp hfind
          rw [(findIdxN_none_iff _ ins).mpr h0] at hfd
          cases hfd
        | some t =>
          dsimp only
          cases hdt : derefOnce t <;> rfl
    · rw [if_neg hmeta]
      cases hfind : ins.find? (fun t => !t.implementsContext) with
      | none => rfl
      | some t =>
        exfalso
        obtain ⟨j, hj⟩ := findIdxN_some_of_find?_some _ ins t hfind
        rw [idxOrNeg, hj] at hmeta
        dsimp only at hmeta
        exact hmeta (by exact_mod_cast Nat.zero_le j)
  · rw [if_neg hresp, if_neg hresp]
    dsimp only
    by_cases hmeta : idxOrNeg (fun t => !t.implementsContext) ins ≥ 0
    · rw [if_pos hmeta]
      cases hfd : findIdxN (fun t => !t.implementsContext) ins with
      | none => rw [idxOrNeg, hfd] at hmeta; exact absurd hmeta (by decide)
      | some j =>
        have hget : ins.get? j = ins.find? (fun t => !t.implementsContext) :=
          findIdxN_get? _ ins j hfd
        rw [show (idxOrNeg (fun t => !t.implementsContext) ins).toNat = j by
          rw [idxOrNeg, hfd]; exact Int.toNat_natCast j]
        rw [hget]
        cases hfind : ins.find? (fun t => !t.implementsContext) with
        | none =>
          exfalso
          have h0 := (find?_none_iff _ ins).mp hfind
          rw [(findIdxN_none_iff _ ins).mpr h0] at hfd
          cases hfd
        | some t =>
          dsimp only
          cases hdt : derefOnce t <;> rfl
    · rw [if_neg hmeta]
      cases hfind : ins.find? (fun t => !t.implementsContext) with
      | none => rfl
      | some t =>
        exfalso
        obtain ⟨j, hj⟩ := findIdxN_some_of_find?_some _ ins t hfind
        rw [idxOrNeg, hj] at hmeta
        dsimp only at hmeta
        exact hmeta (by exact_mod_cast Nat.zero_le j)

theorem classifyInputs_ok0 (ins : List GoType)
    (hc : countContextParams ins ≤ 1) (hm : countMetadataParams ins ≤ 1) :
    classifyInputs {} 0 ins = .ok (inputsClassified ins) := by
  rw [classifyInputs_ok ins {} 0 hc (fun _ => rfl) hm (fun _ => rfl)]
  rw [posFrom_eq_idxOrNeg _ rfl, posFrom_eq_idxOrNeg _ rfl, optOr_eq _ _ rfl]
  rfl

/-- C1: a callable with two context-capable parameters, two non-context
parameters, two error-capable results, or two non-error results always
fails analysis.  A callable with at most one of each succeeds, recording
every slot position at the slot's actual index and `-1` for an absent
slot — *provided* (amended) its metadata parameter, when present,
dereferences to a struct whose directives the metadata walker accepts; the
frozen claim omits that proviso (see the counterexample `func(string)`). -/
theorem parse_function_slot_classification (ins outs : List GoType) :
    ((2 ≤ countContextParams ins ∨ 2 ≤ countMetadataParams ins ∨
      2 ≤ countErrorResults outs ∨ 2 ≤ countResponseResults outs) →
      ∃ e, ParseRestfulFunction (.func ins outs) = .error e) ∧
    (countContextParams ins ≤ 1 → countMetadataParams ins ≤ 1 →
     countErrorResults outs ≤ 1 → countResponseResults outs ≤ 1 →
     metadataWalkOK ins outs →
     ∃ info', ParseRestfulFunction (.func ins outs) = .ok info' ∧
       info'.inContextPosition = idxOrNeg (fun t => t.implementsContext) ins ∧
       info'.inMetadataPosition = idxOrNeg (fun t => !t.implementsContext) ins ∧
       info'.outErrorPosition = idxOrNeg (fun t => t.implementsError) outs ∧
       info'.outResponsePosition =
         idxOrNeg (fun t => !t.implementsError) outs) := by
  constructor
  · intro hbad
    by_cases hin : 2 ≤ countContextParams ins ∨ 2 ≤ countMetadataParams ins
    · obtain ⟨e, he⟩ := classifyInputs_err ins {} 0 (by
        rcases hin with h | h
        · exact Or.inl h
        · exact Or.inr (Or.inl h))
      refine ⟨e, ?_⟩
      simp only [ParseRestfulFunction]
      rw [he]
    · push_neg at hin
      obtain ⟨hcl, hml⟩ := hin
      have hc1 : countContextParams ins ≤ 1 := by omega
      have hm1 : countMetadataParams ins ≤ 1 := by omega
      have hout : 2 ≤ countErrorResults outs ∨ 2 ≤ countResponseResults outs := by
        rcases hbad with h | h | h | h
        · omega
        · omega
        · exact Or.inl h
        · exact Or.inr h
      obtain ⟨e, he⟩ := classifyOutputs_err outs (inputsClassified ins) 0 (by
        rcases hout with h | h
        · exact Or.inl h
        · exact Or.inr (Or.inl h))
      refine ⟨e, ?_⟩
      simp only [ParseRestfulFunction]
      rw [classifyInputs_ok0 ins hc1 hm1]
      dsimp only
      rw [he]
  · intro hc1 hm1 he1 hr1 hw
    have hchar := ParseRestfulFunction_func_char ins outs hc1 hm1 he1 hr1
    simp only [metadataWalkOK] at hw
    cases hfind : ins.find? (fun t => !t.implementsContext) with
    | none =>
      rw [hfind] at hchar
      dsimp only at hchar
      exact ⟨preWalkInfo ins outs, hchar, rfl, rfl, rfl, rfl⟩
    | some t =>
      rw [hfind] at hchar hw
      dsimp only at hchar hw
      cases hdt : derefOnce t with
      | strct s ic ie fields =>
        rw [hdt] at hchar hw
        dsimp only at hchar hw
        obtain ⟨info', hwalk⟩ := hw
        obtain ⟨s1, s2, s3, s4⟩ := parseMetadataFields_slots fields _ info' hwalk
        exact ⟨info', hchar.trans hwalk, s1.trans rfl, s2.trans rfl,
          s3.trans rfl, s4.trans rfl⟩
      | bool => rw [hdt] at hw; dsimp only at hw
      | int => rw [hdt] at hw; dsimp only at hw
      | int8 => rw [hdt] at hw; dsimp only at hw
      | int16 => rw [hdt] at hw; dsimp only at hw
      | int32 => rw [hdt] at hw; dsimp only at hw
      | int64 => rw [hdt] at hw; dsimp only at hw
      | uint => rw [hdt] at hw; dsimp only at hw
      | uint8 => rw [hdt] at hw; dsimp only at hw
      | uint16 => rw [hdt] at hw; dsimp only at hw
      | uint32 => rw [hdt] at hw; dsimp only at hw
      | uint64 => rw [hdt] at hw; dsimp only at hw
      | str => rw [hdt] at hw; dsimp only at hw
      | slice e => rw [hdt] at hw; dsimp only at hw
      | ptr e => rw [hdt] at hw; dsimp only at hw
      | func i o => rw [hdt] at hw; dsimp only at hw
      | iface n c e => rw [hdt] at hw; dsimp only at hw
      | named n k c e => rw [hdt] at hw; dsimp only at hw

/-- Witness for C1 at `func(ctx, struct{}) (string, error)`: one slot of
each class, classified at the actual indices. -/
theorem parse_function_slot_classification_witness :
    ∃ info',
      ParseRestfulFunction
          (.func [contextContext, .strct "M" false false []]
            [.str, errorIface]) = .ok info' ∧
      info'.inContextPosition = 0 ∧ info'.inMetadataPosition = 1 ∧
      info'.outErrorPosition = 1 ∧ info'.outResponsePosition = 0 := by
  obtain ⟨info', h1, h2, h3, h4, h5⟩ :=
    (parse_function_slot_classification
      [contextContext, .strct "M" false false []] [.str, errorIface]).2
      (by decide) (by decide) (by decide) (by decide)
      ⟨preWalkInfo [contextContext, .strct "M" false false []]
        [.str, errorIface], rfl⟩
  refine ⟨info', h1, ?_, ?_, ?_, ?_⟩
  · rw [h2]; rfl
  · rw [h3]; rfl
  · rw [h4]; rfl
  · rw [h5]; rfl

/-- Counterexample to C1 as frozen: `func(string)` has at most one slot of
every class, yet analysis fails — the lone non-context parameter must be a
struct (after one pointer dereference). -/
theorem single_plain_input_fails_despite_slot_counts :
    countContextParams [GoType.str] ≤ 1 ∧
    countMetadataParams [GoType.str] ≤ 1 ∧
    countErrorResults ([] : List GoType) ≤ 1 ∧
    countResponseResults ([] : List GoType) ≤ 1 ∧
    ParseRestfulFunction (.func [.str] []) =
      .error "unexpected input type: string" :=
  ⟨by decide, by decide, by decide, by decide, rfl⟩

end RestfulWrapper
